import Mathlib

/-!
Shallow embedding of `src/client/mapview.cpp` (MapView: floor visibility,
visibility cache, geometry, fade transitions, frame compositing).

The repository snapshot contains only `mapview.cpp`; the headers it includes
(`mapview.h`, `position.h`, `size.h`, the framework `Timer`, and the numeric
constants `MAX_Z`, `SEA_FLOOR`, `UNDERGROUND_FLOOR`,
`AWARE_UNDEGROUND_FLOOR_RANGE`, `SPRITE_SIZE`) are not part of the source.
Definitions for those parts are modelled from the specification and marked
`Modelled from the spec:` in their doc comments.  Everything else is a direct
translation of the `.cpp` file.

Machine integers are modelled as `Int`/`Nat`; where C++ unsigned wraparound
matters (the anti-diagonal loop of `updateVisibleThings`) the reductions
modulo `2^32` / `2^64` are written out explicitly.  C++ `/` and `%` on
signed integers are `Int.tdiv` / `Int.tmod` (truncation toward zero).
`float` values that the claims observe (fade levels, stretch factors) are
modelled as exact rationals.
-/

namespace OTC

/-- Modelled from the spec: "z is floor index, 0..MAX_Z"; the maximum floor
index constant from the untranslated headers (standard client value). -/
def MAX_Z : Int := 15

/-- Modelled from the spec: "first visible floor = 0, last visible floor = 7
(SEA_FLOOR)"; sea-level floor constant from the untranslated headers. -/
def SEA_FLOOR : Int := 7

/-- Modelled from the spec: "first visible floor = max(10−2,8) per the
underground range constant"; first underground floor constant. -/
def UNDERGROUND_FLOOR : Int := 8

/-- Modelled from the spec: "camera at z=10 (underground) → last visible
floor = 10+2"; underground awareness range constant. -/
def AWARE_UNDEGROUND_FLOOR_RANGE : Int := 2

/-- Modelled from the spec: "`move(SPRITE_SIZE, 0)` with SPRITE_SIZE=32";
pixels per tile sprite. -/
def SPRITE_SIZE : Int := 32

/-- Modelled from the spec: "Position: integer (x, y, z) world coordinate;
z is floor index, 0..MAX_Z".  The class itself lives in an untranslated
header. -/
structure Pos where
  x : Int
  y : Int
  z : Int
deriving DecidableEq, Repr

/-- Modelled from the spec: a position is valid when its coordinates are
world coordinates (non-negative) and its floor index is in `0..MAX_Z`;
a default-constructed position is invalid ("Invalid/unknown camera
position"). -/
def Pos.isValid (p : Pos) : Bool :=
  decide (0 ≤ p.x ∧ 0 ≤ p.y ∧ 0 ≤ p.z ∧ p.z ≤ MAX_Z)

/-- The default-constructed (invalid) position, `Position()` / `{}`. -/
def invalidPos : Pos := ⟨-1, -1, -1⟩

/-- `Position::translated(dx, dy)` keeps the floor. -/
def Pos.translated (p : Pos) (dx dy : Int) : Pos := ⟨p.x + dx, p.y + dy, p.z⟩

/-- Modelled from the spec: "Covered transforms (`coveredUp`/`coveredDown`)
map a position on floor z to the position on floor z±1 that occupies the same
projected screen cell (diagonal floor-shift offset)".  `coveredUp(n)` shifts
diagonally by `+n` and `n` floors up; the position changes only when the
shifted position is valid (the C++ member mutates and reports success).  This
is the ignore-result form used by the visibility cache builder, where `n` may
be negative (then it acts as `coveredDown`). -/
def Pos.coveredUpN (p : Pos) (n : Int) : Pos :=
  let q : Pos := ⟨p.x + n, p.y + n, p.z - n⟩
  if q.isValid then q else p

/-- Modelled from the spec: single-step `coveredUp()` as used by the floor
range calculator; fails (position unchanged, loop exits) when the shifted
position is invalid. -/
def Pos.coveredUp1 (p : Pos) : Option Pos :=
  let q : Pos := ⟨p.x + 1, p.y + 1, p.z - 1⟩
  if q.isValid then some q else none

/-- Modelled from the spec: `Position::up()` moves one floor up (smaller z),
failing when the result is invalid. -/
def Pos.up1 (p : Pos) : Option Pos :=
  let q : Pos := ⟨p.x, p.y, p.z - 1⟩
  if q.isValid then some q else none

/-- Modelled from the spec: "camera … moved ≥3 tiles laterally" —
tile (Chebyshev) distance between two positions, from the untranslated
header. -/
def Pos.distance (p q : Pos) : Int :=
  max (p.x - q.x).natAbs (p.y - q.y).natAbs

/-- Modelled from the spec: aware-range membership test
`Position::isInRange(pos, left, right, top, bottom, ignoreZ)` — `pos` lies
within the asymmetric margins around `c`, floors must match unless
`ignoreZ`. -/
def Pos.isInRange (c p : Pos) (left right top bottom : Int) (ignoreZ : Bool) : Bool :=
  decide (c.x - left ≤ p.x ∧ p.x ≤ c.x + right ∧
          c.y - top ≤ p.y ∧ p.y ≤ c.y + bottom) &&
  (ignoreZ || decide (p.z = c.z))

/-- Modelled from the spec: integer width/height pair (the `Size` class lives
in an untranslated header). -/
structure SizeT where
  w : Int
  h : Int
deriving DecidableEq, Repr

/-- A world tile as seen through the capability predicates the map view
consumes (`tile->isDrawable()`, bucket predicates, creature list).  Creatures
are identifiers. -/
structure Tile where
  isDrawable : Bool
  hasGround : Bool
  hasSurface : Bool
  hasEffect : Bool
  canShade : Bool
  limitsFloorsView : Bool → Bool
  creatures : List Nat

/-- The external collaborators of the map view: the world-query interface
(`g_map`), graphics limits (`g_graphics`), application flags (`g_app`), the
followed creature's walk offset, and the mouse-position adjustment that
`Position::getDirectionFromPosition`/`translatedToDirection` (untranslated
header code) perform when the camera moves. -/
structure World where
  getTile : Pos → Option Tile
  isLookPossible : Pos → Bool
  awareRangeLeft : Int
  awareRangeTop : Int
  maxTextureSize : Int
  isDrawingEffectsOnTop : Bool
  walkOffsetX : Int
  walkOffsetY : Int
  mouseAdjust : Pos → Pos → Pos → Pos

/-- `Otc::FloorViewMode` (values listed in the spec). -/
inductive FloorViewMode where
  | NORMAL
  | ALWAYS
  | ALWAYS_WITH_TRANSPARENCY
  | LOCKED
deriving DecidableEq, Repr

/-- One per-floor entry of the visible-tiles cache: four ordered bucket
sequences, holding tile positions in draw order. -/
structure FloorData where
  grounds : List Pos
  surfaces : List Pos
  effects : List Pos
  shades : List Pos
deriving DecidableEq, Repr

def FloorData.emptyFD : FloorData := ⟨[], [], [], []⟩

/-- An axis-aligned integer rectangle (top-left corner and size). -/
structure RectT where
  x : Int
  y : Int
  w : Int
  h : Int
deriving DecidableEq, Repr

/-- The `MapView` member state.  Per-frame timers store their start instant
in microseconds, the "now" instant being threaded through the frame
functions; `scaleFactor` is the antialiasing scale (only ever the float
1.f or 2.f in the source, hence an integer here); shaders are identified by
numbers (pointer identity); `errors` collects `g_logger.traceError` output.
The mouse-highlight bookkeeping (`m_lastHighlightTile`) and the
direction-indexed viewport cache are not modelled: no claim observes them. -/
structure MapViewState where
  visibleDimension : SizeT
  drawDimension : SizeT
  tileSize : Int
  virtualCenterOffsetX : Int
  virtualCenterOffsetY : Int
  rectDimension : SizeT
  awareLeft : Int
  awareRight : Int
  awareTop : Int
  awareBottom : Int
  floorMin : Int
  floorMax : Int
  cachedFirstVisibleFloor : Int
  cachedLastVisibleFloor : Int
  lockedFirstVisibleFloor : Int
  floorViewMode : FloorViewMode
  follow : Bool
  followingCreaturePos : Pos
  customCameraPosition : Pos
  lastCameraPosition : Pos
  mousePosition : Pos
  moveOffsetX : Int
  moveOffsetY : Int
  refreshVisibleTiles : Bool
  refreshVisibleCreatures : Bool
  cachedVisibleTiles : Int → FloorData
  visibleCreatures : List Nat
  fadingFloorStart : Int → Int
  floorFading : Int
  lastFadeLevel : ℚ
  drawLights : Bool
  drawTexts : Bool
  drawNames : Bool
  drawHealthBars : Bool
  drawManaBar : Bool
  scaleFactor : Int
  shader : Option Nat
  nextShader : Option Nat
  shaderSwitchDone : Bool
  fadeTimerStart : Int
  fadeInTime : ℚ
  fadeOutTime : ℚ
  rectCacheRect : Option RectT
  rectCacheSrcRect : RectT
  errors : List String

/-- `MapView::getCameraPosition`: the followed creature's position when
following, else the fixed camera position. -/
def getCameraPosition (s : MapViewState) : Pos :=
  if s.follow then s.followingCreaturePos else s.customCameraPosition

/-- Modelled from the spec: "If fading is enabled" — floor fading is active
when a positive fade duration is configured (accessor in the untranslated
header). -/
def canFloorFade (s : MapViewState) : Bool := decide (0 < s.floorFading)

/-- `Timer::elapsed_millis()` against an explicit current instant `now`
(microseconds). -/
def elapsedMillis (start now : Int) : Int := (now - start).tdiv 1000

/-- `std::clamp` on exact rationals. -/
def clampQ (q lo hi : ℚ) : ℚ := if q < lo then lo else if hi < q then hi else q

/-- Modelled from the spec: "Fade level for a floor = elapsed/fadeDuration,
clamped to [0,1]" (accessor in the untranslated header). -/
def getFadeLevel (s : MapViewState) (now : Int) (z : Int) : ℚ :=
  clampQ ((elapsedMillis (s.fadingFloorStart z) now : ℚ) / (s.floorFading : ℚ)) 0 1

/-- `std::clamp<int>(v, lo, hi)`. -/
def clampI (v lo hi : Int) : Int :=
  if v < lo then lo else if hi < v then hi else v

/-- `tile && tile->limitsFloorsView(b)` for the tile at `p` (no tile: no
limit). -/
def tileLimits (w : World) (p : Pos) (b : Bool) : Bool :=
  match w.getTile p with
  | some t => t.limitsFloorsView b
  | none => false

/-- The inner while-loop of `MapView::calcFirstVisibleFloor`: walk
`coveredPos`/`upperPos` upward while both shifts stay valid and
`upperPos.z >= firstFloor`, clamping `firstFloor` to one below the first
floor-limiting tile found physically or geometrically above.  `fuel` bounds
the iteration count (the C++ loop terminates because z strictly
decreases). -/
def limitScan (w : World) (isLook : Bool) : Int → Pos → Pos → Nat → Int
  | firstFloor, _, _, 0 => firstFloor
  | firstFloor, upperPos, coveredPos, fuel + 1 =>
    match coveredPos.coveredUp1, upperPos.up1 with
    | some c, some u =>
      if firstFloor ≤ u.z then
        if tileLimits w u (!isLook) then u.z + 1
        else if tileLimits w c isLook then c.z + 1
        else limitScan w isLook firstFloor u c fuel
      else firstFloor
    | _, _ => firstFloor

/-- The 3×3 neighborhood offsets in the order the two nested for-loops of
`calcFirstVisibleFloor` produce them. -/
def neighborOffsets : List (Int × Int) :=
  [(-1, -1), (-1, 0), (-1, 1), (0, -1), (0, 0), (0, 1), (1, -1), (1, 0), (1, 1)]

/-- One step of the 3×3 neighborhood scan of `calcFirstVisibleFloor`.  Both
for-loop conditions re-check `checkLimitsFloorsView && firstFloor <
cameraPosition.z`; since `firstFloor` never decreases, guarding each step is
equivalent to the loops' early exit.  Only the center tile and non-diagonal
look-through neighbors are scanned. -/
def scanStep (w : World) (cam : Pos) (checkLimitsFloorsView : Bool)
    (firstFloor : Int) (d : Int × Int) : Int :=
  if checkLimitsFloorsView ∧ firstFloor < cam.z then
    let pos := cam.translated d.1 d.2
    if (d.1 = 0 ∧ d.2 = 0) ∨ ((d.1.natAbs ≠ d.2.natAbs) ∧ w.isLookPossible pos) then
      limitScan w (w.isLookPossible pos) firstFloor pos pos (pos.z.toNat + 2)
    else firstFloor
  else firstFloor

/-- `MapView::calcFirstVisibleFloor(checkLimitsFloorsView)`. -/
def calcFirstVisibleFloor (w : World) (s : MapViewState)
    (checkLimitsFloorsView : Bool) : Int :=
  let z : Int :=
    if s.lockedFirstVisibleFloor ≠ -1 then
      s.lockedFirstVisibleFloor
    else
      let cam := getCameraPosition s
      if cam.isValid then
        let firstFloor : Int :=
          if SEA_FLOOR < cam.z then
            max (cam.z - AWARE_UNDEGROUND_FLOOR_RANGE) UNDERGROUND_FLOOR
          else 0
        neighborOffsets.foldl (scanStep w cam checkLimitsFloorsView) firstFloor
      else SEA_FLOOR
  clampI z 0 MAX_Z

/-- `MapView::calcLastVisibleFloor`. -/
def calcLastVisibleFloor (s : MapViewState) : Int :=
  let cam := getCameraPosition s
  let z : Int :=
    if cam.isValid then
      if SEA_FLOOR < cam.z then cam.z + AWARE_UNDEGROUND_FLOOR_RANGE else SEA_FLOOR
    else SEA_FLOOR
  let z := if s.lockedFirstVisibleFloor ≠ -1 then max s.lockedFirstVisibleFloor z else z
  clampI z 0 MAX_Z

/-- The cache-clearing do-while at the top of `updateVisibleThings`:
`do { m_cachedVisibleTiles[m_floorMin].clear(); } while (++m_floorMin <=
m_floorMax);`.  Returns the cleared cache and the final `m_floorMin`.
The fuel `(fM - fm).toNat` is exactly the number of repeats after the first
mandatory iteration of the do-while. -/
def clearCacheRec (cache : Int → FloorData) (fm fM : Int) :
    Nat → (Int → FloorData) × Int
  | 0 => (fun z => if z = fm then FloorData.emptyFD else cache z, fm + 1)
  | fuel + 1 =>
    let cache1 := fun z => if z = fm then FloorData.emptyFD else cache z
    if fm + 1 ≤ fM then clearCacheRec cache1 (fm + 1) fM fuel
    else (cache1, fm + 1)

/-- `Timer::restart(shift)` for every floor of `[lo, hi]` with a shared shift
(the camera-jump branch of the fading system): the timer's elapsed time
becomes `shiftMicros`, i.e. its start instant becomes `now - shiftMicros`.
The descending C++ loop touches each floor of the range once, so the
pointwise closed form is the loop's effect. -/
def restartRange (f : Int → Int) (lo hi now shiftMicros : Int) : Int → Int :=
  fun i => if lo ≤ i ∧ i ≤ hi then now - shiftMicros else f i

/-- The remaining-time restarts of the fading system
(`shift = max(0, m_floorFading - elapsed_millis)`, then
`restart(shift * 1000)`) applied to every floor of `[lo, hi)`; each floor's
shift depends only on that floor's own timer, so the pointwise closed form is
the loop's effect. -/
def restartRemaining (f : Int → Int) (lo hi now fading : Int) : Int → Int :=
  fun i =>
    if lo ≤ i ∧ i < hi then
      now - (max 0 (fading - elapsedMillis (f i) now)) * 1000
    else f i

/-- Two's-complement reinterpretation of an unsigned value as a 32-bit
signed `int` (the C++ conversions `int iy = ...`, `int ix = advance`). -/
def toInt32 (n : Nat) : Int :=
  let m : Nat := n % 2 ^ 32
  if m < 2 ^ 31 then (m : Int) else (m : Int) - 2 ^ 32

/-- `const uint32_t advance = std::max<uint32_t>(diagonal - height, 0)`:
`diagonal` is a `uint_fast32_t` (64-bit) counter and `height` a non-negative
`int`, so the subtraction wraps modulo `2^64` and the result is truncated to
32 bits; the max against 0 never binds on an unsigned value.  `h ≤ 2^64` is
implicit (heights are small). -/
def diagAdvance (d h : Nat) : Nat :=
  max ((d + 2 ^ 64 - h) % 2 ^ 64 % 2 ^ 32) 0

/-- `int iy = diagonal - advance` (64-bit unsigned arithmetic, then converted
to `int`). -/
def diagIyStart (d h : Nat) : Int :=
  toInt32 ((d + 2 ^ 64 - diagAdvance d h) % 2 ^ 64)

/-- `int ix = advance` converted to `int`. -/
def diagIxStart (d h : Nat) : Int :=
  toInt32 (diagAdvance d h)

/-- The inner loop over one anti-diagonal:
`for (int iy = ..., ix = ...; iy >= 0 && ix < width; --iy, ++ix)`; the fuel
bounds the iteration count (the C++ loop terminates because iy strictly
decreases). -/
def innerDiag (w : Int) : Int → Int → Nat → List (Int × Int)
  | _, _, 0 => []
  | ix, iy, fuel + 1 =>
    if 0 ≤ iy ∧ ix < w then (ix, iy) :: innerDiag w (ix + 1) (iy - 1) fuel
    else []

/-- The grid-cell visiting order of the visibility cache builder for one
floor: `numDiagonals = width + height - 1` anti-diagonals, each enumerated by
`innerDiag` from its computed start cell.  `h + 2` iterations suffice for one
diagonal since `iy` starts at most at `h` and decreases. -/
def diagCells (w h : Nat) : List (Int × Int) :=
  (List.range (w + h - 1)).flatMap fun d =>
    innerDiag (w : Int) (diagIxStart d h) (diagIyStart d h) (h + 2)

/-- `MapView::isInRange(pos)` (camera-centered aware-range test used while
collecting visible creatures). -/
def mapViewIsInRange (s : MapViewState) (cam : Pos) (p : Pos) : Bool :=
  cam.isInRange p (s.awareLeft - 1) (s.awareRight - 2) (s.awareTop - 1)
    (s.awareBottom - 2) false

/-- `MapView::isDrawingLights` (light view present iff lights enabled). -/
def isDrawingLights (s : MapViewState) : Bool := s.drawLights

/-- The pieces of state the tile-scanning loops of `updateVisibleThings`
mutate. -/
structure ScanAcc where
  cache : Int → FloorData
  visibleCreatures : List Nat
  floorMin : Int
  floorMax : Int

/-- Creature collection for one scanned tile (lines 407-412): append the
tile's creatures in reverse order when the creature refresh is pending and
the tile is within aware range. -/
def collectCreatures (sv : MapViewState) (cam : Pos) (tilePos : Pos) (tile : Tile)
    (acc : ScanAcc) : ScanAcc :=
  if sv.refreshVisibleCreatures && mapViewIsInRange sv cam tilePos then
    if tile.creatures.isEmpty then acc
    else { acc with visibleCreatures := acc.visibleCreatures ++ tile.creatures.reverse }
  else acc

/-- Bucket classification for one scanned tile (lines 414-428): shade,
ground, surface and effect buckets of floor `iz`. -/
def classifyTile (w : World) (sv : MapViewState) (iz : Int) (tilePos : Pos)
    (tile : Tile) (addTile : Bool) (acc : ScanAcc) : ScanAcc :=
  let fd := acc.cache iz
  let fd :=
    if isDrawingLights sv && tile.canShade then
      { fd with shades := fd.shades ++ [tilePos] }
    else fd
  let fd :=
    if addTile then
      let fd := if tile.hasGround then { fd with grounds := fd.grounds ++ [tilePos] } else fd
      let fd := if tile.hasSurface then { fd with surfaces := fd.surfaces ++ [tilePos] } else fd
      if w.isDrawingEffectsOnTop && tile.hasEffect then
        { fd with effects := fd.effects ++ [tilePos] }
      else fd
    else fd
  { acc with cache := fun z => if z = iz then fd else acc.cache z }

/-- The floor-bounds widening for one scanned tile (lines 430-435):
`if (iz < m_floorMin) m_floorMin = iz; else if (iz > m_floorMax)
m_floorMax = iz;`. -/
def widenFloors (iz : Int) (cond : Bool) (acc : ScanAcc) : ScanAcc :=
  if cond then
    if iz < acc.floorMin then { acc with floorMin := iz }
    else if acc.floorMax < iz then { acc with floorMax := iz }
    else acc
  else acc

/-- The per-cell body of the visibility cache builder (lines 396-436 of
`mapview.cpp`): compute the world position for the grid cell, project it onto
floor `iz` with `coveredUp`, fetch and classify the tile, collect creatures,
and widen `m_floorMin`/`m_floorMax` (the `addTile` local is the constant
`true` of the source). -/
def scanCell (w : World) (s : MapViewState) (cam : Pos) (iz : Int)
    (acc : ScanAcc) (c : Int × Int) : ScanAcc :=
  let tilePos :=
    (cam.translated (c.1 - s.virtualCenterOffsetX) (c.2 - s.virtualCenterOffsetY)).coveredUpN
      (cam.z - iz)
  match w.getTile tilePos with
  | none => acc
  | some tile =>
    if !tile.isDrawable then acc
    else
      let acc := collectCreatures s cam tilePos tile acc
      let addTile := true
      let acc := classifyTile w s iz tilePos tile addTile acc
      widenFloors iz (addTile || !(acc.cache iz).shades.isEmpty) acc

/-- The floors `hi, hi-1, ..., lo` in the order the outer scan loop visits
them. -/
def floorRangeDesc (hi lo : Int) : List Int :=
  (List.range (hi + 1 - lo).toNat).map fun k => hi - (k : Int)

/-- One floor of the visibility cache rebuild: fold the per-cell body over
the anti-diagonal enumeration of the draw-dimension grid. -/
def scanFloor (w : World) (s : MapViewState) (cam : Pos) (acc : ScanAcc) (iz : Int) : ScanAcc :=
  (diagCells s.drawDimension.w.toNat s.drawDimension.h.toNat).foldl
    (scanCell w s cam iz) acc

/-- The whole tile scan of `updateVisibleThings`: floors from
`m_cachedLastVisibleFloor` down to the locally recomputed first visible
floor. -/
def scanAll (w : World) (s : MapViewState) (cam : Pos) (firstFloor : Int) : ScanAcc :=
  (floorRangeDesc s.cachedLastVisibleFloor firstFloor).foldl (scanFloor w s cam)
    { cache := s.cachedVisibleTiles
      visibleCreatures := s.visibleCreatures
      floorMin := s.floorMin
      floorMax := s.floorMax }

/-- The cache-clearing and creature-list-clearing prologue of
`updateVisibleThings` (lines 314-321). -/
def uvtAfterClear (s : MapViewState) : MapViewState :=
  let cleared := clearCacheRec s.cachedVisibleTiles s.floorMin s.floorMax
    (s.floorMax - s.floorMin).toNat
  let s := { s with cachedVisibleTiles := cleared.1, floorMin := cleared.2 }
  if s.refreshVisibleCreatures then { s with visibleCreatures := [] } else s

/-- The lock-override update of `updateVisibleThings` (lines 323-327). -/
def uvtAfterLock (cam : Pos) (s : MapViewState) : MapViewState :=
  { s with lockedFirstVisibleFloor :=
      if s.floorViewMode = FloorViewMode.LOCKED then cam.z else -1 }

/-- The camera-changed block of `updateVisibleThings` (lines 330-359): mouse
adjustment, the `onFloorChange` creature-refresh request, recomputation of
the cached floor range with the last-below-first forcing, and the reset of
the floor bounds to the camera floor. -/
def uvtAfterCamera (w : World) (cam : Pos) (s : MapViewState) : MapViewState :=
  if s.lastCameraPosition ≠ cam then
    let s :=
      if s.mousePosition.isValid then
        { s with mousePosition := w.mouseAdjust s.lastCameraPosition cam s.mousePosition }
      else s
    let s :=
      if s.lastCameraPosition.z ≠ cam.z then
        { s with refreshVisibleCreatures := true }
      else s
    let fst := calcFirstVisibleFloor w s (s.floorViewMode ≠ FloorViewMode.ALWAYS)
    let lst0 := calcLastVisibleFloor s
    let lst := if lst0 < fst then fst else lst0
    { s with cachedFirstVisibleFloor := fst, cachedLastVisibleFloor := lst,
             floorMin := cam.z, floorMax := cam.z }
  else s

/-- The locally recomputed first visible floor used by the fading block and
the tile scan (lines 361-364). -/
def uvtLocalFirst (w : World) (s : MapViewState) : Int :=
  if s.floorViewMode = FloorViewMode.ALWAYS_WITH_TRANSPARENCY ∨ canFloorFade s then
    calcFirstVisibleFloor w s false
  else s.cachedFirstVisibleFloor

/-- The camera-jump test of the fading system (line 367). -/
def uvtCameraJumped (cam : Pos) (s : MapViewState) : Bool :=
  !s.lastCameraPosition.isValid || decide (s.lastCameraPosition.z ≠ cam.z) ||
    decide (3 ≤ s.lastCameraPosition.distance cam)

/-- The fading block of `updateVisibleThings` (lines 366-382): full restarts
on a camera jump, else remaining-time restarts for newly hidden floors, else
remaining-time restarts plus the `m_lastFadeLevel` reset for newly shown
floors. -/
def uvtAfterFade (cam : Pos) (now prevFirst localFirst : Int) (s : MapViewState) :
    MapViewState :=
  if uvtCameraJumped cam s then
    let ff := restartRange s.fadingFloorStart localFirst
      s.cachedLastVisibleFloor now (s.floorFading * 1000)
    { s with fadingFloorStart := ff }
  else if prevFirst < s.cachedFirstVisibleFloor then
    let ff := restartRemaining s.fadingFloorStart prevFirst
      s.cachedFirstVisibleFloor now s.floorFading
    { s with fadingFloorStart := ff }
  else if s.cachedFirstVisibleFloor < prevFirst then
    let ff := restartRemaining s.fadingFloorStart s.cachedFirstVisibleFloor
      prevFirst now s.floorFading
    { s with lastFadeLevel := 0, fadingFloorStart := ff }
  else s

/-- Whether the showing-floor branch of the fading block runs (the only
write of `m_lastFadeLevel` inside `updateVisibleThings`). -/
def uvtShowingFloor (cam : Pos) (prevFirst : Int) (s : MapViewState) : Bool :=
  !uvtCameraJumped cam s && !decide (prevFirst < s.cachedFirstVisibleFloor) &&
    decide (s.cachedFirstVisibleFloor < prevFirst)

/-- The tile scan of `updateVisibleThings` (lines 386-439) together with the
final clearing of the two dirty flags (lines 441-442). -/
def uvtAfterScan (w : World) (cam : Pos) (localFirst : Int) (s : MapViewState) :
    MapViewState :=
  let acc := scanAll w s cam localFirst
  { s with cachedVisibleTiles := acc.cache,
           visibleCreatures := acc.visibleCreatures,
           floorMin := acc.floorMin, floorMax := acc.floorMax,
           refreshVisibleCreatures := false, refreshVisibleTiles := false }

/-- `MapView::updateVisibleThings`, decomposed into its source blocks, also
reporting whether the showing-floor branch of the fading system ran (the
only place that resets `m_lastFadeLevel` to 0); the ambient-light refresh of
`onFloorChange` is an external effect. -/
def updateVisibleThingsFlag (w : World) (now : Int) (s : MapViewState) :
    MapViewState × Bool :=
  let cam := getCameraPosition s
  if !cam.isValid then (s, false)
  else
    let s := uvtAfterClear s
    let s := uvtAfterLock cam s
    let prevFirst := s.cachedFirstVisibleFloor
    let s := uvtAfterCamera w cam s
    let localFirst := uvtLocalFirst w s
    let showing := uvtShowingFloor cam prevFirst s
    let s := uvtAfterFade cam now prevFirst localFirst s
    let s := { s with lastCameraPosition := cam }
    (uvtAfterScan w cam localFirst s, showing)

/-- `MapView::updateVisibleThings` (the state transition alone). -/
def updateVisibleThings (w : World) (now : Int) (s : MapViewState) : MapViewState :=
  (updateVisibleThingsFlag w now s).1

/-- `MapView::updateGeometry(visibleDimension)`: reject when the derived
buffer size exceeds the maximum texture size (error logged, state
unchanged), else install the new geometry, derive the aware range from the
draw dimension, invalidate the rect cache and request refreshes.  The
framed-pool/light-view resizes and the direction-indexed viewport cache are
external or unmodelled. -/
def updateGeometry (w : World) (s : MapViewState) (visibleDimension : SizeT) :
    MapViewState :=
  let tileSize := SPRITE_SIZE * s.scaleFactor
  let drawDimension : SizeT := ⟨visibleDimension.w + 3, visibleDimension.h + 3⟩
  let bufferW := drawDimension.w * tileSize
  let bufferH := drawDimension.h * tileSize
  if w.maxTextureSize < bufferW ∨ w.maxTextureSize < bufferH then
    { s with errors := s.errors ++ ["reached max zoom out"] }
  else
    let s := { s with visibleDimension := visibleDimension,
                      drawDimension := drawDimension,
                      tileSize := tileSize,
                      virtualCenterOffsetX := drawDimension.w.tdiv 2 - 1,
                      virtualCenterOffsetY := drawDimension.h.tdiv 2 - 1,
                      rectDimension := ⟨bufferW, bufferH⟩ }
    let s := { s with awareLeft := min w.awareRangeLeft (drawDimension.w.tdiv 2 - 1),
                      awareTop := min w.awareRangeTop (drawDimension.h.tdiv 2 - 1) }
    let s := { s with awareBottom := s.awareTop + 1, awareRight := s.awareLeft + 1 }
    let s := { s with rectCacheRect := none }
    { s with refreshVisibleTiles := true, refreshVisibleCreatures := true }

/-- Modelled from the spec: the rejection test `visibleDimension < Size(3)`
("dimension below minimum", "dimension <3 is rejected"; the `Size`
comparison operator lives in an untranslated header): a dimension is below
the 3×3 minimum when either component is. -/
def sizeBelowMin (d : SizeT) : Bool := decide (d.w < 3 ∨ d.h < 3)

/-- `MapView::setVisibleDimension`. -/
def setVisibleDimension (w : World) (s : MapViewState) (visibleDimension : SizeT) :
    MapViewState :=
  if visibleDimension = s.visibleDimension then s
  else if visibleDimension.w.tmod 2 ≠ 1 ∨ visibleDimension.h.tmod 2 ≠ 1 then
    { s with errors := s.errors ++ ["visible dimension must be odd"] }
  else if sizeBelowMin visibleDimension then
    { s with errors := s.errors ++ ["reach max zoom in"] }
  else updateGeometry w s visibleDimension

/-- `MapView::move(x, y)`: accumulate the pixel offsets, snap whole tiles
into the fixed camera position (`/` and `%` are C++ truncating division), and
invalidate the rect cache.  `onCameraMove` only resets the rect cache again
and updates the external viewport. -/
def move (s : MapViewState) (x y : Int) : MapViewState :=
  let mx := s.moveOffsetX + x
  let my := s.moveOffsetY + y
  let tmpX := mx.tdiv SPRITE_SIZE
  let camX := if tmpX ≠ 0 then s.customCameraPosition.x + tmpX else s.customCameraPosition.x
  let mx := if tmpX ≠ 0 then mx.tmod SPRITE_SIZE else mx
  let tmpY := my.tdiv SPRITE_SIZE
  let camY := if tmpY ≠ 0 then s.customCameraPosition.y + tmpY else s.customCameraPosition.y
  let my := if tmpY ≠ 0 then my.tmod SPRITE_SIZE else my
  let requestTilesUpdate := tmpX ≠ 0 ∨ tmpY ≠ 0
  let s := { s with customCameraPosition := ⟨camX, camY, s.customCameraPosition.z⟩,
                    moveOffsetX := mx, moveOffsetY := my,
                    rectCacheRect := none }
  if requestTilesUpdate then { s with refreshVisibleTiles := true } else s

/-- `MapView::setShader(shader, fadein, fadeout)`: no-op when the shader is
already active; otherwise either queue a crossfade (previous shader present
and `fadeout > 0`) or switch immediately, then restart the fade timer and
record the durations.  `shader->setPosition` is an external effect. -/
def setShader (s : MapViewState) (now : Int) (shader : Option Nat)
    (fadein fadeout : ℚ) : MapViewState :=
  if s.shader = shader then s
  else
    let s :=
      if 0 < fadeout ∧ s.shader ≠ none then
        { s with nextShader := shader, shaderSwitchDone := false }
      else
        { s with shader := shader, nextShader := none, shaderSwitchDone := true }
    { s with fadeTimerStart := now, fadeInTime := fadein, fadeOutTime := fadeout }

/-- Modelled from the spec: "aspect-ratio-preserving scaling" —
`srcSize.scale(srcVisible, Fw::KeepAspectRatio)` (the `Size` class lives in
an untranslated header): the result keeps `src`'s aspect ratio and fits
inside `target` (integer arithmetic, truncating division). -/
def sizeScaleKeepAspect (src target : SizeT) : SizeT :=
  if src.w = 0 ∨ src.h = 0 then target
  else
    let rw := (target.h * src.w).tdiv src.h
    if rw ≤ target.w then ⟨rw, target.h⟩
    else ⟨target.w, (target.w * src.h).tdiv src.w⟩

/-- `MapView::calcFramebufferSource(destSize)`. -/
def calcFramebufferSource (w : World) (s : MapViewState) (destSize : SizeT) : RectT :=
  let dox := ((s.drawDimension.w - s.visibleDimension.w - 1).tdiv 2) * s.tileSize
  let doy := ((s.drawDimension.h - s.visibleDimension.h - 1).tdiv 2) * s.tileSize
  let dox := if s.follow then dox + w.walkOffsetX * s.scaleFactor
    else if ¬(s.moveOffsetX = 0 ∧ s.moveOffsetY = 0) then dox + s.moveOffsetX * s.scaleFactor
    else dox
  let doy := if s.follow then doy + w.walkOffsetY * s.scaleFactor
    else if ¬(s.moveOffsetX = 0 ∧ s.moveOffsetY = 0) then doy + s.moveOffsetY * s.scaleFactor
    else doy
  let srcVisible : SizeT := ⟨s.visibleDimension.w * s.tileSize, s.visibleDimension.h * s.tileSize⟩
  let srcSize := sizeScaleKeepAspect destSize srcVisible
  let dox := dox + (srcVisible.w - srcSize.w).tdiv 2
  let doy := doy + (srcVisible.h - srcSize.h).tdiv 2
  ⟨dox, doy, srcSize.w, srcSize.h⟩

/-- C++ `float`-to-`int` conversion: truncation toward zero, on the exact
rational value. -/
def ratTrunc (q : ℚ) : Int := if 0 ≤ q then ⌊q⌋ else -⌊-q⌋

/-- `MapView::getPosition(point, mapSize)`.  The stretch factors `sh`/`sv`
are `float`s in the source, modelled as exact rationals. -/
def getPosition (w : World) (s : MapViewState) (point : Int × Int) (mapSize : SizeT) : Pos :=
  let cam := getCameraPosition s
  if !cam.isValid then invalidPos
  else
    let srcRect := calcFramebufferSource w s mapSize
    let sh : ℚ := (srcRect.w : ℚ) / (mapSize.w : ℚ)
    let sv : ℚ := (srcRect.h : ℚ) / (mapSize.h : ℚ)
    let fbx := ratTrunc ((point.1 : ℚ) * sh)
    let fby := ratTrunc ((point.2 : ℚ) * sv)
    let cox := (fbx + srcRect.x).tdiv s.tileSize
    let coy := (fby + srcRect.y).tdiv s.tileSize
    let tx := s.virtualCenterOffsetX - s.drawDimension.w + cox + 2
    let ty := s.virtualCenterOffsetY - s.drawDimension.h + coy + 2
    if tx + cam.x < 0 ∧ ty + cam.y < 0 then invalidPos
    else
      let position : Pos := ⟨tx + cam.x, ty + cam.y, 0 + cam.z⟩
      if !position.isValid then invalidPos else position

/-- The observable outcome of one `MapView::draw(rect)` call: the state
after the frame plus which passes ran and whether the fade-in-finished
notification fired.  `drawFloor`'s emission of draw commands is external;
it is always reached (`floorPass`), while the creature-information, light
and text passes are skipped when the camera position is invalid.  The light
pass additionally needs lights enabled; the gating of the creature/text
passes on their content flags happens inside the callees. -/
structure DrawResult where
  state : MapViewState
  firedFadeIn : Bool
  floorPass : Bool
  creatureInfoPass : Bool
  lightPass : Bool
  textPass : Bool

/-- The first two steps of `MapView::draw(rect)` (lines 107-117): lazy
visibility refresh when the tiles dirty flag is set, then the rect-cache
memoization (recomputed only when the destination rect changed; the stored
stretch factors are consumed by the external text/creature passes and not
modelled beyond the source rect). -/
def drawPre (w : World) (now : Int) (rect : RectT) (s : MapViewState) : MapViewState :=
  let s := if s.refreshVisibleTiles then updateVisibleThings w now s else s
  if s.rectCacheRect ≠ some rect then
    { s with rectCacheRect := some rect,
             rectCacheSrcRect := calcFramebufferSource w s ⟨rect.w, rect.h⟩ }
  else s

/-- The fade-in-finished test of `MapView::draw` (lines 119-125): fading
enabled, and the topmost visible floor's fade level differs from the last
observed one and equals exactly 1. -/
def drawFired (w : World) (now : Int) (rect : RectT) (s : MapViewState) : Bool :=
  let s := drawPre w now rect s
  canFloorFade s &&
    (decide (s.lastFadeLevel ≠ getFadeLevel s now s.cachedFirstVisibleFloor) &&
     decide (getFadeLevel s now s.cachedFirstVisibleFloor = 1))

/-- The state of `MapView::draw` after the fade-in-finished check:
`onFadeInFinished()` requests another tile refresh and the last observed
fade level is recorded. -/
def drawAfterFade (w : World) (now : Int) (rect : RectT) (s : MapViewState) :
    MapViewState :=
  let s1 := drawPre w now rect s
  if drawFired w now rect s then
    { s1 with refreshVisibleTiles := true,
              lastFadeLevel := getFadeLevel s1 now s1.cachedFirstVisibleFloor }
  else s1

/-- `MapView::draw(rect)` at instant `now`: lazy visibility refresh, rect
cache memoization, fade-in-finished notification, then the draw passes
(floor pass always; creature-information, light and text passes only with a
valid camera position). -/
def draw (w : World) (now : Int) (rect : RectT) (s : MapViewState) : DrawResult :=
  let s2 := drawAfterFade w now rect s
  if !(getCameraPosition s2).isValid then
    ⟨s2, drawFired w now rect s, true, false, false, false⟩
  else
    ⟨s2, drawFired w now rect s, true, true, s2.drawLights, true⟩

/-- An event in the life of a map view: a `draw(rect)` frame at a time
instant, or any public mutator call (camera set, move, dimension change,
flag setter, ...) modelled as an arbitrary state transformation. -/
inductive MapViewEvent where
  | frame (rect : RectT) (now : Int)
  | mutate (f : MapViewState → MapViewState)

/-- Soundness condition on mutator events: no public mutator of `MapView`
writes `m_lastFadeLevel` (in the source it is written only by the
fade-in-finished check of `draw` and the showing-floor branch of
`updateVisibleThings`). -/
def eventOK : MapViewEvent → Prop
  | MapViewEvent.frame _ _ => True
  | MapViewEvent.mutate f => ∀ s, (f s).lastFadeLevel = s.lastFadeLevel

/-- Execute one event. -/
def stepEvent (w : World) (s : MapViewState) : MapViewEvent → MapViewState
  | MapViewEvent.frame rect now => (draw w now rect s).state
  | MapViewEvent.mutate f => f s

/-- Execute a sequence of events. -/
def runEvents (w : World) (s : MapViewState) (evs : List MapViewEvent) : MapViewState :=
  evs.foldl (stepEvent w) s

/-- Whether an event fires the fade-in-finished notification from state
`s`. -/
def eventFires (w : World) (s : MapViewState) : MapViewEvent → Bool
  | MapViewEvent.frame rect now => (draw w now rect s).firedFadeIn
  | MapViewEvent.mutate _ => false

/-- Whether an event performs a floor-reveal boundary shift (the
showing-floor branch of `updateVisibleThings`, the only reset of
`m_lastFadeLevel`) from state `s`. -/
def eventReveals (w : World) (s : MapViewState) : MapViewEvent → Bool
  | MapViewEvent.frame _ now =>
    s.refreshVisibleTiles && (updateVisibleThingsFlag w now s).2
  | MapViewEvent.mutate _ => false

/-- The event at index `n` fires the fade-in-finished notification. -/
def firesAt (w : World) (s : MapViewState) (evs : List MapViewEvent) (n : Nat) : Prop :=
  ∃ ev, evs[n]? = some ev ∧ eventFires w (runEvents w s (evs.take n)) ev = true

/-- The event at index `n` performs a floor-reveal boundary shift. -/
def revealsAt (w : World) (s : MapViewState) (evs : List MapViewEvent) (n : Nat) : Prop :=
  ∃ ev, evs[n]? = some ev ∧ eventReveals w (runEvents w s (evs.take n)) ev = true

/-- A geometry-consistent `MapView` state: what `updateGeometry` establishes
and `setVisibleDimension`'s checks maintain (odd visible dimension at least
3×3, buffer within the maximum texture size). -/
def validGeometryState (w : World) (s : MapViewState) : Prop :=
  s.visibleDimension.w.tmod 2 = 1 ∧ s.visibleDimension.h.tmod 2 = 1 ∧
  3 ≤ s.visibleDimension.w ∧ 3 ≤ s.visibleDimension.h ∧
  (s.visibleDimension.w + 3) * (SPRITE_SIZE * s.scaleFactor) ≤ w.maxTextureSize ∧
  (s.visibleDimension.h + 3) * (SPRITE_SIZE * s.scaleFactor) ≤ w.maxTextureSize

/-- A world with no tiles and unobstructed sight, with the stock aware-range
defaults and texture limit. -/
def emptyWorld : World where
  getTile := fun _ => none
  isLookPossible := fun _ => true
  awareRangeLeft := 8
  awareRangeTop := 6
  maxTextureSize := 16384
  isDrawingEffectsOnTop := false
  walkOffsetX := 0
  walkOffsetY := 0
  mouseAdjust := fun _ _ m => m

/-- A reachable baseline state: the constructor's `setVisibleDimension(Size(15,
11))` geometry, fixed camera at (100, 100, 7), one completed visibility
refresh behind it (floor bounds 7..7, cached floor range 0..7 as computed in
`emptyWorld`), no fading, no pending refreshes. -/
def sampleState : MapViewState where
  visibleDimension := ⟨15, 11⟩
  drawDimension := ⟨18, 14⟩
  tileSize := 32
  virtualCenterOffsetX := 8
  virtualCenterOffsetY := 6
  rectDimension := ⟨576, 448⟩
  awareLeft := 8
  awareRight := 9
  awareTop := 6
  awareBottom := 7
  floorMin := 7
  floorMax := 7
  cachedFirstVisibleFloor := 0
  cachedLastVisibleFloor := 7
  lockedFirstVisibleFloor := -1
  floorViewMode := FloorViewMode.NORMAL
  follow := false
  followingCreaturePos := invalidPos
  customCameraPosition := ⟨100, 100, 7⟩
  lastCameraPosition := ⟨100, 100, 7⟩
  mousePosition := invalidPos
  moveOffsetX := 0
  moveOffsetY := 0
  refreshVisibleTiles := false
  refreshVisibleCreatures := false
  cachedVisibleTiles := fun _ => FloorData.emptyFD
  visibleCreatures := []
  fadingFloorStart := fun _ => 0
  floorFading := 0
  lastFadeLevel := 0
  drawLights := false
  drawTexts := true
  drawNames := true
  drawHealthBars := true
  drawManaBar := false
  scaleFactor := 1
  shader := none
  nextShader := none
  shaderSwitchDone := true
  fadeTimerStart := 0
  fadeInTime := 0
  fadeOutTime := 0
  rectCacheRect := none
  rectCacheSrcRect := ⟨0, 0, 0, 0⟩
  errors := []

/-- The counterexample state for the floor-bounds invariant: `sampleState`
in LOCKED mode after a completed refresh at the fixed camera (locked first
visible floor caches the range 7..7), with the camera unchanged since. -/
def lockedRefreshedState : MapViewState :=
  { sampleState with floorViewMode := FloorViewMode.LOCKED,
                     lockedFirstVisibleFloor := 7,
                     cachedFirstVisibleFloor := 7,
                     cachedLastVisibleFloor := 7 }

/-- A state whose camera position is invalid (followed creature not yet
resolved). -/
def invalidCameraState : MapViewState :=
  { sampleState with follow := true, followingCreaturePos := invalidPos,
                     drawLights := true }

/-- A fading-enabled baseline for the fade-notification claims: one second of
floor fading, all floor timers started at instant 0, camera fixed at
(10, 10, 7) after a completed refresh with first visible floor 2 (e.g. under
a roof), fade level last observed at 0. -/
def fadingState : MapViewState :=
  { sampleState with floorFading := 1000,
                     customCameraPosition := ⟨10, 10, 7⟩,
                     lastCameraPosition := ⟨10, 10, 7⟩,
                     cachedFirstVisibleFloor := 2,
                     cachedLastVisibleFloor := 7,
                     lastFadeLevel := 0 }

/-! ### Helper lemmas -/

theorem foldl_preserve {α β : Type} {P : α → Prop} {f : α → β → α} {l : List β}
    (h : ∀ a b, P a → P (f a b)) : ∀ a, P a → P (l.foldl f a) := by
  induction l with
  | nil => intro a ha; simpa using ha
  | cons x xs ih => intro a ha; simpa using ih _ (h a x ha)

theorem updateVisibleThings_invalidCam (w : World) (now : Int) (s : MapViewState)
    (h : (getCameraPosition s).isValid = false) :
    updateVisibleThings w now s = s := by
  simp [updateVisibleThings, updateVisibleThingsFlag, h]

theorem getCameraPosition_congr {s t : MapViewState} (h1 : t.follow = s.follow)
    (h2 : t.followingCreaturePos = s.followingCreaturePos)
    (h3 : t.customCameraPosition = s.customCameraPosition) :
    getCameraPosition t = getCameraPosition s := by
  unfold getCameraPosition
  rw [h1, h2, h3]

theorem uvtAfterClear_fields (s : MapViewState) :
    (uvtAfterClear s).follow = s.follow ∧
    (uvtAfterClear s).followingCreaturePos = s.followingCreaturePos ∧
    (uvtAfterClear s).customCameraPosition = s.customCameraPosition ∧
    (uvtAfterClear s).lastCameraPosition = s.lastCameraPosition ∧
    (uvtAfterClear s).cachedFirstVisibleFloor = s.cachedFirstVisibleFloor ∧
    (uvtAfterClear s).cachedLastVisibleFloor = s.cachedLastVisibleFloor ∧
    (uvtAfterClear s).lastFadeLevel = s.lastFadeLevel := by
  simp only [uvtAfterClear]
  split <;> simp

theorem uvtAfterLock_fields (cam : Pos) (s : MapViewState) :
    (uvtAfterLock cam s).follow = s.follow ∧
    (uvtAfterLock cam s).followingCreaturePos = s.followingCreaturePos ∧
    (uvtAfterLock cam s).customCameraPosition = s.customCameraPosition ∧
    (uvtAfterLock cam s).lastCameraPosition = s.lastCameraPosition ∧
    (uvtAfterLock cam s).cachedFirstVisibleFloor = s.cachedFirstVisibleFloor ∧
    (uvtAfterLock cam s).cachedLastVisibleFloor = s.cachedLastVisibleFloor ∧
    (uvtAfterLock cam s).lastFadeLevel = s.lastFadeLevel := by
  simp [uvtAfterLock]

theorem uvtAfterCamera_fields (w : World) (cam : Pos) (s : MapViewState) :
    (uvtAfterCamera w cam s).follow = s.follow ∧
    (uvtAfterCamera w cam s).followingCreaturePos = s.followingCreaturePos ∧
    (uvtAfterCamera w cam s).customCameraPosition = s.customCameraPosition ∧
    (uvtAfterCamera w cam s).lastCameraPosition = s.lastCameraPosition ∧
    (uvtAfterCamera w cam s).lastFadeLevel = s.lastFadeLevel := by
  simp only [uvtAfterCamera]
  split <;> [skip; simp]
  split <;> split <;> simp

theorem uvtAfterFade_fields (cam : Pos) (now pf lf : Int) (s : MapViewState) :
    (uvtAfterFade cam now pf lf s).follow = s.follow ∧
    (uvtAfterFade cam now pf lf s).followingCreaturePos = s.followingCreaturePos ∧
    (uvtAfterFade cam now pf lf s).customCameraPosition = s.customCameraPosition ∧
    (uvtAfterFade cam now pf lf s).lastCameraPosition = s.lastCameraPosition ∧
    (uvtAfterFade cam now pf lf s).cachedFirstVisibleFloor = s.cachedFirstVisibleFloor ∧
    (uvtAfterFade cam now pf lf s).cachedLastVisibleFloor = s.cachedLastVisibleFloor ∧
    (uvtAfterFade cam now pf lf s).floorMin = s.floorMin ∧
    (uvtAfterFade cam now pf lf s).floorMax = s.floorMax := by
  simp only [uvtAfterFade]
  split_ifs <;> simp

theorem uvtAfterScan_fields (w : World) (cam : Pos) (lf : Int) (s : MapViewState) :
    (uvtAfterScan w cam lf s).follow = s.follow ∧
    (uvtAfterScan w cam lf s).followingCreaturePos = s.followingCreaturePos ∧
    (uvtAfterScan w cam lf s).customCameraPosition = s.customCameraPosition ∧
    (uvtAfterScan w cam lf s).lastCameraPosition = s.lastCameraPosition ∧
    (uvtAfterScan w cam lf s).cachedFirstVisibleFloor = s.cachedFirstVisibleFloor ∧
    (uvtAfterScan w cam lf s).cachedLastVisibleFloor = s.cachedLastVisibleFloor ∧
    (uvtAfterScan w cam lf s).lastFadeLevel = s.lastFadeLevel := by
  simp [uvtAfterScan]

theorem getCameraPosition_uvtAfterClear (s : MapViewState) :
    getCameraPosition (uvtAfterClear s) = getCameraPosition s :=
  getCameraPosition_congr (uvtAfterClear_fields s).1 (uvtAfterClear_fields s).2.1
    (uvtAfterClear_fields s).2.2.1

theorem getCameraPosition_uvtAfterLock (cam : Pos) (s : MapViewState) :
    getCameraPosition (uvtAfterLock cam s) = getCameraPosition s :=
  getCameraPosition_congr (uvtAfterLock_fields cam s).1 (uvtAfterLock_fields cam s).2.1
    (uvtAfterLock_fields cam s).2.2.1

theorem getCameraPosition_uvtAfterCamera (w : World) (cam : Pos) (s : MapViewState) :
    getCameraPosition (uvtAfterCamera w cam s) = getCameraPosition s :=
  getCameraPosition_congr (uvtAfterCamera_fields w cam s).1
    (uvtAfterCamera_fields w cam s).2.1 (uvtAfterCamera_fields w cam s).2.2.1

theorem getCameraPosition_uvtAfterFade (cam : Pos) (now pf lf : Int) (s : MapViewState) :
    getCameraPosition (uvtAfterFade cam now pf lf s) = getCameraPosition s :=
  getCameraPosition_congr (uvtAfterFade_fields cam now pf lf s).1
    (uvtAfterFade_fields cam now pf lf s).2.1 (uvtAfterFade_fields cam now pf lf s).2.2.1

theorem getCameraPosition_uvtAfterScan (w : World) (cam : Pos) (lf : Int)
    (s : MapViewState) :
    getCameraPosition (uvtAfterScan w cam lf s) = getCameraPosition s :=
  getCameraPosition_congr (uvtAfterScan_fields w cam lf s).1
    (uvtAfterScan_fields w cam lf s).2.1 (uvtAfterScan_fields w cam lf s).2.2.1

theorem getCameraPosition_setLastCam (s : MapViewState) (cam : Pos) :
    getCameraPosition { s with lastCameraPosition := cam } = getCameraPosition s := rfl

theorem updateVisibleThings_camera (w : World) (now : Int) (s : MapViewState) :
    getCameraPosition (updateVisibleThings w now s) = getCameraPosition s := by
  by_cases hv : (getCameraPosition s).isValid = true
  · simp only [updateVisibleThings, updateVisibleThingsFlag, hv, Bool.not_true,
      Bool.false_eq_true, if_false, getCameraPosition_uvtAfterScan,
      getCameraPosition_setLastCam, getCameraPosition_uvtAfterFade,
      getCameraPosition_uvtAfterCamera, getCameraPosition_uvtAfterLock,
      getCameraPosition_uvtAfterClear]
  · rw [updateVisibleThings_invalidCam w now s (by simpa using hv)]

theorem collectCreatures_floors (sv : MapViewState) (cam : Pos) (tilePos : Pos)
    (tile : Tile) (acc : ScanAcc) :
    (collectCreatures sv cam tilePos tile acc).floorMin = acc.floorMin ∧
    (collectCreatures sv cam tilePos tile acc).floorMax = acc.floorMax := by
  unfold collectCreatures
  split_ifs <;> simp

theorem classifyTile_floors (w : World) (sv : MapViewState) (iz : Int)
    (tilePos : Pos) (tile : Tile) (addTile : Bool) (acc : ScanAcc) :
    (classifyTile w sv iz tilePos tile addTile acc).floorMin = acc.floorMin ∧
    (classifyTile w sv iz tilePos tile addTile acc).floorMax = acc.floorMax := by
  simp [classifyTile]

theorem widenFloors_bounds (iz c : Int) (cond : Bool) (acc : ScanAcc)
    (h1 : acc.floorMin ≤ c) (h2 : c ≤ acc.floorMax) :
    (widenFloors iz cond acc).floorMin ≤ c ∧ c ≤ (widenFloors iz cond acc).floorMax := by
  unfold widenFloors
  split_ifs <;> (try dsimp only) <;> omega

theorem scanCell_floor_bounds (w : World) (sv : MapViewState) (cam : Pos)
    (iz c : Int) (acc : ScanAcc) (cell : Int × Int)
    (h1 : acc.floorMin ≤ c) (h2 : c ≤ acc.floorMax) :
    (scanCell w sv cam iz acc cell).floorMin ≤ c ∧
    c ≤ (scanCell w sv cam iz acc cell).floorMax := by
  simp only [scanCell]
  split
  · exact ⟨h1, h2⟩
  · split
    · exact ⟨h1, h2⟩
    · set tilePos := (cam.translated (cell.1 - sv.virtualCenterOffsetX)
        (cell.2 - sv.virtualCenterOffsetY)).coveredUpN (cam.z - iz)
      rename_i tile _ _
      have hcol := collectCreatures_floors sv cam tilePos tile acc
      have hcls := classifyTile_floors w sv iz tilePos tile true
        (collectCreatures sv cam tilePos tile acc)
      exact widenFloors_bounds iz c _ _ (by omega) (by omega)

theorem scanAll_floor_bounds (w : World) (sv : MapViewState) (cam : Pos)
    (ff c : Int) (h1 : sv.floorMin ≤ c) (h2 : c ≤ sv.floorMax) :
    (scanAll w sv cam ff).floorMin ≤ c ∧ c ≤ (scanAll w sv cam ff).floorMax := by
  unfold scanAll
  refine foldl_preserve (P := fun acc : ScanAcc => acc.floorMin ≤ c ∧ c ≤ acc.floorMax)
    ?_ _ ⟨h1, h2⟩
  intro acc iz hacc
  unfold scanFloor
  refine foldl_preserve (P := fun acc : ScanAcc => acc.floorMin ≤ c ∧ c ≤ acc.floorMax)
    ?_ _ hacc
  intro a cell ha
  exact scanCell_floor_bounds w sv cam iz c a cell ha.1 ha.2

theorem uvtAfterCamera_floor_reset (w : World) (cam : Pos) (s : MapViewState)
    (h : s.lastCameraPosition ≠ cam) :
    (uvtAfterCamera w cam s).floorMin = cam.z ∧
    (uvtAfterCamera w cam s).floorMax = cam.z := by
  simp only [uvtAfterCamera, if_pos h]
  simp

theorem uvt_core_floor_bounds (w : World) (cam : Pos) (now pf lf : Int)
    (s2 : MapViewState) (h : s2.lastCameraPosition ≠ cam) :
    (uvtAfterScan w cam lf
        { uvtAfterFade cam now pf lf (uvtAfterCamera w cam s2) with
          lastCameraPosition := cam }).floorMin ≤ cam.z ∧
    cam.z ≤ (uvtAfterScan w cam lf
        { uvtAfterFade cam now pf lf (uvtAfterCamera w cam s2) with
          lastCameraPosition := cam }).floorMax := by
  have hreset := uvtAfterCamera_floor_reset w cam s2 h
  have hfade := uvtAfterFade_fields cam now pf lf (uvtAfterCamera w cam s2)
  have e1 : ({ uvtAfterFade cam now pf lf (uvtAfterCamera w cam s2) with
      lastCameraPosition := cam } : MapViewState).floorMin = cam.z := by
    rw [show ({ uvtAfterFade cam now pf lf (uvtAfterCamera w cam s2) with
          lastCameraPosition := cam } : MapViewState).floorMin =
        (uvtAfterFade cam now pf lf (uvtAfterCamera w cam s2)).floorMin from rfl,
      hfade.2.2.2.2.2.2.1, hreset.1]
  have e2 : ({ uvtAfterFade cam now pf lf (uvtAfterCamera w cam s2) with
      lastCameraPosition := cam } : MapViewState).floorMax = cam.z := by
    rw [show ({ uvtAfterFade cam now pf lf (uvtAfterCamera w cam s2) with
          lastCameraPosition := cam } : MapViewState).floorMax =
        (uvtAfterFade cam now pf lf (uvtAfterCamera w cam s2)).floorMax from rfl,
      hfade.2.2.2.2.2.2.2, hreset.2]
  simp only [uvtAfterScan]
  exact scanAll_floor_bounds w _ cam lf cam.z (le_of_eq e1) (ge_of_eq e2)

theorem coveredUp1_z {p q : Pos} (h : p.coveredUp1 = some q) : q.z = p.z - 1 := by
  simp only [Pos.coveredUp1] at h
  split at h
  · cases h; rfl
  · cases h

theorem up1_z {p q : Pos} (h : p.up1 = some q) : q.z = p.z - 1 := by
  simp only [Pos.up1] at h
  split at h
  · cases h; rfl
  · cases h

theorem clampI_mono {a b lo hi : Int} (hlh : lo ≤ hi) (h : a ≤ b) :
    clampI a lo hi ≤ clampI b lo hi := by
  unfold clampI
  split_ifs <;> omega

theorem Pos.isValid_iff (p : Pos) :
    p.isValid = true ↔ 0 ≤ p.x ∧ 0 ≤ p.y ∧ 0 ≤ p.z ∧ p.z ≤ MAX_Z := by
  simp [Pos.isValid]

theorem limitScan_le (w : World) (look : Bool) (B : Int) :
    ∀ (fuel : Nat) (ff : Int) (up cov : Pos), ff ≤ B → up.z ≤ B → cov.z ≤ B →
      limitScan w look ff up cov fuel ≤ B := by
  intro fuel
  induction fuel with
  | zero => intro ff up cov h1 _ _; simpa [limitScan] using h1
  | succ n ih =>
    intro ff up cov h1 h2 h3
    rw [limitScan]
    cases hc : cov.coveredUp1 with
    | none => exact h1
    | some c =>
      cases hu : up.up1 with
      | none => exact h1
      | some u =>
        have hcz : c.z = cov.z - 1 := coveredUp1_z hc
        have huz : u.z = up.z - 1 := up1_z hu
        dsimp only
        split_ifs with h4 h5 h6
        · omega
        · omega
        · exact ih ff u c h1 (by omega) (by omega)
        · exact h1

theorem scanStep_le (w : World) (cam : Pos) (b : Bool) (ff : Int) (d : Int × Int)
    (h : ff ≤ cam.z) : scanStep w cam b ff d ≤ cam.z := by
  simp only [scanStep]
  split_ifs with h1 h2
  · refine limitScan_le w _ cam.z _ ff _ _ h ?_ ?_ <;> simp [Pos.translated]
  · exact h
  · exact h

theorem calcFirst_le_calcLast (w : World) (s : MapViewState) (b : Bool) :
    calcFirstVisibleFloor w s b ≤ calcLastVisibleFloor s := by
  simp only [calcFirstVisibleFloor, calcLastVisibleFloor]
  by_cases hl : s.lockedFirstVisibleFloor ≠ -1
  · rw [if_pos hl, if_pos hl]
    exact clampI_mono (by simp [MAX_Z]) (le_max_left _ _)
  · rw [if_neg hl, if_neg hl]
    by_cases hv : (getCameraPosition s).isValid = true
    · rw [if_pos hv, if_pos hv]
      apply clampI_mono (by simp [MAX_Z])
      have hz := ((Pos.isValid_iff _).mp hv).2.2
      have hA : AWARE_UNDEGROUND_FLOOR_RANGE = (2 : Int) := rfl
      have hS : SEA_FLOOR = (7 : Int) := rfl
      by_cases hsea : SEA_FLOOR < (getCameraPosition s).z
      · rw [if_pos hsea, if_pos hsea]
        have hbase : max ((getCameraPosition s).z - AWARE_UNDEGROUND_FLOOR_RANGE)
            UNDERGROUND_FLOOR ≤ (getCameraPosition s).z := by
          have hU : UNDERGROUND_FLOOR = (8 : Int) := rfl
          omega
        have hscan := foldl_preserve
          (P := fun ff => ff ≤ (getCameraPosition s).z)
          (f := scanStep w (getCameraPosition s) b)
          (l := neighborOffsets)
          (fun a d ha => scanStep_le w _ b a d ha) _ hbase
        omega
      · rw [if_neg hsea, if_neg hsea]
        have hbase : (0 : Int) ≤ (getCameraPosition s).z := hz.1
        have hscan := foldl_preserve
          (P := fun ff => ff ≤ (getCameraPosition s).z)
          (f := scanStep w (getCameraPosition s) b)
          (l := neighborOffsets)
          (fun a d ha => scanStep_le w _ b a d ha) _ hbase
        omega
    · rw [if_neg hv, if_neg hv]

theorem uvtAfterCamera_cached_order (w : World) (cam : Pos) (s : MapViewState)
    (h : s.cachedFirstVisibleFloor ≤ s.cachedLastVisibleFloor) :
    (uvtAfterCamera w cam s).cachedFirstVisibleFloor ≤
      (uvtAfterCamera w cam s).cachedLastVisibleFloor := by
  unfold uvtAfterCamera
  split
  · dsimp only
    split <;> omega
  · exact h

theorem uvt_core_cached_order (w : World) (cam : Pos) (now pf lf : Int)
    (s2 : MapViewState)
    (h : s2.cachedFirstVisibleFloor ≤ s2.cachedLastVisibleFloor) :
    (uvtAfterScan w cam lf
        { uvtAfterFade cam now pf lf (uvtAfterCamera w cam s2) with
          lastCameraPosition := cam }).cachedFirstVisibleFloor ≤
    (uvtAfterScan w cam lf
        { uvtAfterFade cam now pf lf (uvtAfterCamera w cam s2) with
          lastCameraPosition := cam }).cachedLastVisibleFloor := by
  have hcam := uvtAfterCamera_cached_order w cam s2 h
  have hfade := uvtAfterFade_fields cam now pf lf (uvtAfterCamera w cam s2)
  have e1 : (uvtAfterScan w cam lf
      { uvtAfterFade cam now pf lf (uvtAfterCamera w cam s2) with
        lastCameraPosition := cam }).cachedFirstVisibleFloor =
      (uvtAfterCamera w cam s2).cachedFirstVisibleFloor := by
    rw [(uvtAfterScan_fields w cam lf _).2.2.2.2.1]
    rw [show ({ uvtAfterFade cam now pf lf (uvtAfterCamera w cam s2) with
        lastCameraPosition := cam } : MapViewState).cachedFirstVisibleFloor =
      (uvtAfterFade cam now pf lf (uvtAfterCamera w cam s2)).cachedFirstVisibleFloor
      from rfl]
    exact hfade.2.2.2.2.1
  have e2 : (uvtAfterScan w cam lf
      { uvtAfterFade cam now pf lf (uvtAfterCamera w cam s2) with
        lastCameraPosition := cam }).cachedLastVisibleFloor =
      (uvtAfterCamera w cam s2).cachedLastVisibleFloor := by
    rw [(uvtAfterScan_fields w cam lf _).2.2.2.2.2.1]
    rw [show ({ uvtAfterFade cam now pf lf (uvtAfterCamera w cam s2) with
        lastCameraPosition := cam } : MapViewState).cachedLastVisibleFloor =
      (uvtAfterFade cam now pf lf (uvtAfterCamera w cam s2)).cachedLastVisibleFloor
      from rfl]
    exact hfade.2.2.2.2.2.1
  omega

/-! ### C9 lemmas: the center-of-viewport projection round trip -/

theorem ratTrunc_mul_div (a p q : Int) (ha : 0 ≤ a) (hp : 0 ≤ p) (hq : 0 < q) :
    ratTrunc ((a : ℚ) * ((p : ℚ) / (q : ℚ))) = (a * p) / q := by
  have h1 : ((a : ℚ) * ((p : ℚ) / (q : ℚ))) = ((a * p : Int) : ℚ) / ((q.toNat : ℕ) : ℚ) := by
    have hqq : ((q.toNat : ℕ) : ℚ) = (q : ℚ) := by
      rw [show ((q.toNat : ℕ) : ℚ) = ((q.toNat : ℤ) : ℚ) by push_cast; ring,
        Int.toNat_of_nonneg hq.le]
    rw [hqq]
    push_cast
    ring
  have h0 : (0 : ℚ) ≤ (a : ℚ) * ((p : ℚ) / (q : ℚ)) := by positivity
  rw [ratTrunc, if_pos h0, h1, Rat.floor_intCast_div_natCast,
    Int.toNat_of_nonneg hq.le]

theorem sizeScale_w_bounds (src target : SizeT) (hmw : 0 < src.w)
    (hmh : 0 < src.h) (hW : 0 < target.w) (hH : 0 < target.h) :
    0 ≤ (sizeScaleKeepAspect src target).w ∧
    (sizeScaleKeepAspect src target).w ≤ target.w ∧
    0 ≤ (sizeScaleKeepAspect src target).h ∧
    (sizeScaleKeepAspect src target).h ≤ target.h := by
  simp only [sizeScaleKeepAspect]
  have hrw : (target.h * src.w).tdiv src.h = (target.h * src.w) / src.h :=
    Int.tdiv_eq_ediv (by positivity) hmh.le
  have hrh : (target.w * src.h).tdiv src.w = (target.w * src.h) / src.w :=
    Int.tdiv_eq_ediv (by positivity) hmw.le
  split_ifs with h0 hle
  · omega
  · rw [hrw] at hle ⊢
    refine ⟨Int.ediv_nonneg (by positivity) hmh.le, hle, hH.le, le_refl _⟩
  · rw [hrw] at hle
    push_neg at hle
    rw [hrh]
    refine ⟨hW.le, le_refl _, Int.ediv_nonneg (by positivity) hmw.le, ?_⟩
    show (target.w * src.h) / src.w ≤ target.h
    have hA := Int.ediv_mul_le (target.h * src.w) (by omega : src.h ≠ 0)
    have hWmh : (target.w + 1) * src.h ≤ target.h * src.w := by
      calc (target.w + 1) * src.h ≤ (target.h * src.w) / src.h * src.h := by
            exact mul_le_mul_of_nonneg_right
              (by omega : target.w + 1 ≤ (target.h * src.w) / src.h) hmh.le
        _ ≤ target.h * src.w := hA
    by_contra hcon
    push_neg at hcon
    have hB := Int.ediv_mul_le (target.w * src.h) (by omega : src.w ≠ 0)
    have hHm : (target.h + 1) * src.w ≤ target.w * src.h := by
      calc (target.h + 1) * src.w ≤ (target.w * src.h) / src.w * src.w := by
            exact mul_le_mul_of_nonneg_right
              (by omega : target.h + 1 ≤ (target.w * src.h) / src.w) hmw.le
        _ ≤ target.w * src.h := hB
    nlinarith [hWmh, hHm, hmw, hmh]

theorem cox_bounds (V sw mw : Int) (hV : 2 ≤ V) (hmw : 2 * V - 1 ≤ mw)
    (hsw0 : 0 ≤ sw) (hswW : sw ≤ (2 * V - 1) * 32) :
    ((mw.tdiv 2 * sw) / mw + (32 + ((2 * V - 1) * 32 - sw).tdiv 2)).tdiv 32 = V - 1 ∨
    ((mw.tdiv 2 * sw) / mw + (32 + ((2 * V - 1) * 32 - sw).tdiv 2)).tdiv 32 = V := by
  have hmw0 : (0 : Int) < mw := by omega
  have ha : mw.tdiv 2 = mw / 2 := Int.tdiv_eq_ediv (by omega) (by omega)
  set a := mw.tdiv 2 with hadef
  have ha1 : 2 * a ≤ mw ∧ mw ≤ 2 * a + 1 := by omega
  set fbx := (a * sw) / mw with hfbxdef
  have hfl : fbx * mw ≤ a * sw := Int.ediv_mul_le (a * sw) (by omega)
  have hfu : a * sw < (fbx + 1) * mw := Int.lt_ediv_add_one_mul_self (a * sw) hmw0
  have ha0 : 0 ≤ a := by omega
  have hub : 2 * fbx ≤ sw := by
    nlinarith [mul_nonneg (by omega : (0 : Int) ≤ mw - 2 * a) hsw0]
  have hlb : sw - 33 ≤ 2 * fbx := by
    nlinarith [mul_nonneg (by omega : (0 : Int) ≤ 2 * a - (mw - 1)) hsw0]
  have ht : ((2 * V - 1) * 32 - sw).tdiv 2 = ((2 * V - 1) * 32 - sw) / 2 :=
    Int.tdiv_eq_ediv (by omega) (by omega)
  set t := ((2 * V - 1) * 32 - sw).tdiv 2 with htdef
  have ht1 : 2 * t ≤ (2 * V - 1) * 32 - sw ∧ (2 * V - 1) * 32 - sw ≤ 2 * t + 1 := by
    omega
  have hfbx0 : 0 ≤ fbx := Int.ediv_nonneg (by positivity) hmw0.le
  have hS : (fbx + (32 + t)).tdiv 32 = (fbx + (32 + t)) / 32 :=
    Int.tdiv_eq_ediv (by omega) (by omega)
  omega

/-! ### C9: the center-of-viewport projection round trip -/

/-- C9: for a valid camera position (with tile coordinates at least 1 so the
±1 slack cannot leave the map) and the screen point at the exact center of
the viewport, `getPosition` recovers the camera's tile within ±1 tile in x
and y and exactly in z.  The geometry hypotheses are the invariants
`setVisibleDimension`/`updateGeometry` maintain: odd visible dimensions of at
least 3, `drawDimension = visibleDimension + 3`, the default 32-pixel tile
size, the virtual center offset at `drawDimension / 2 - 1`, no follow-mode
walk offset and no pending keyboard pan, and a viewport at least as large in
pixels as the visible dimension in tiles (so the aspect-scaled framebuffer
source is nonempty). -/
theorem C9_getPosition_center_roundtrip
    (w : World) (s : MapViewState) (mapSize : SizeT)
    (hvalid : (getCameraPosition s).isValid = true)
    (hx1 : 1 ≤ (getCameraPosition s).x) (hy1 : 1 ≤ (getCameraPosition s).y)
    (hwodd : s.visibleDimension.w.tmod 2 = 1)
    (hhodd : s.visibleDimension.h.tmod 2 = 1)
    (hw3 : 3 ≤ s.visibleDimension.w) (hh3 : 3 ≤ s.visibleDimension.h)
    (hdw : s.drawDimension.w = s.visibleDimension.w + 3)
    (hdh : s.drawDimension.h = s.visibleDimension.h + 3)
    (hts : s.tileSize = 32)
    (hvcx : s.virtualCenterOffsetX = s.drawDimension.w.tdiv 2 - 1)
    (hvcy : s.virtualCenterOffsetY = s.drawDimension.h.tdiv 2 - 1)
    (hfollow : s.follow = false) (hmx : s.moveOffsetX = 0) (hmy : s.moveOffsetY = 0)
    (hmwb : s.visibleDimension.w ≤ mapSize.w) (hmhb : s.visibleDimension.h ≤ mapSize.h) :
    ((getPosition w s (mapSize.w.tdiv 2, mapSize.h.tdiv 2) mapSize).x -
        (getCameraPosition s).x).natAbs ≤ 1 ∧
    ((getPosition w s (mapSize.w.tdiv 2, mapSize.h.tdiv 2) mapSize).y -
        (getCameraPosition s).y).natAbs ≤ 1 ∧
    (getPosition w s (mapSize.w.tdiv 2, mapSize.h.tdiv 2) mapSize).z =
      (getCameraPosition s).z := by
  rw [Int.tmod_eq_emod (by omega) (by omega)] at hwodd
  rw [Int.tmod_eq_emod (by omega) (by omega)] at hhodd
  obtain ⟨Vx, hVx1, hVx2⟩ : ∃ V, s.visibleDimension.w = 2 * V - 1 ∧ 2 ≤ V :=
    ⟨(s.visibleDimension.w + 1) / 2, by omega, by omega⟩
  obtain ⟨Vy, hVy1, hVy2⟩ : ∃ V, s.visibleDimension.h = 2 * V - 1 ∧ 2 ≤ V :=
    ⟨(s.visibleDimension.h + 1) / 2, by omega, by omega⟩
  have hmw0 : (0 : Int) < mapSize.w := by omega
  have hmh0 : (0 : Int) < mapSize.h := by omega
  obtain ⟨hsw0, hswW, hsh0, hshH⟩ := sizeScale_w_bounds mapSize
      ⟨s.visibleDimension.w * 32, s.visibleDimension.h * 32⟩ hmw0 hmh0
      (by show (0 : Int) < s.visibleDimension.w * 32; omega)
      (by show (0 : Int) < s.visibleDimension.h * 32; omega)
  have hswW' : (sizeScaleKeepAspect mapSize
      ⟨s.visibleDimension.w * 32, s.visibleDimension.h * 32⟩).w ≤
      s.visibleDimension.w * 32 := hswW
  have hshH' : (sizeScaleKeepAspect mapSize
      ⟨s.visibleDimension.w * 32, s.visibleDimension.h * 32⟩).h ≤
      s.visibleDimension.h * 32 := hshH
  have h2w : s.drawDimension.w - s.visibleDimension.w - 1 = 2 := by omega
  have h2h : s.drawDimension.h - s.visibleDimension.h - 1 = 2 := by omega
  have hsrc : calcFramebufferSource w s mapSize =
      ⟨32 + (s.visibleDimension.w * 32 - (sizeScaleKeepAspect mapSize
          ⟨s.visibleDimension.w * 32, s.visibleDimension.h * 32⟩).w).tdiv 2,
       32 + (s.visibleDimension.h * 32 - (sizeScaleKeepAspect mapSize
          ⟨s.visibleDimension.w * 32, s.visibleDimension.h * 32⟩).h).tdiv 2,
       (sizeScaleKeepAspect mapSize
          ⟨s.visibleDimension.w * 32, s.visibleDimension.h * 32⟩).w,
       (sizeScaleKeepAspect mapSize
          ⟨s.visibleDimension.w * 32, s.visibleDimension.h * 32⟩).h⟩ := by
    simp only [calcFramebufferSource, hfollow, hmx, hmy, hts, h2w, h2h]
    norm_num [show (2 : Int).tdiv 2 = 1 from rfl]
  have htwo : ∀ V : Int, 0 ≤ V → (2 * (V + 1)).tdiv 2 = V + 1 := by
    intro V hV
    rw [Int.tdiv_eq_ediv (by omega) (by omega)]
    omega
  have hvcoX : s.virtualCenterOffsetX = Vx := by
    rw [hvcx, hdw, hVx1, show 2 * Vx - 1 + 3 = 2 * (Vx + 1) from by ring,
      htwo Vx (by omega)]
    omega
  have hvcoY : s.virtualCenterOffsetY = Vy := by
    rw [hvcy, hdh, hVy1, show 2 * Vy - 1 + 3 = 2 * (Vy + 1) from by ring,
      htwo Vy (by omega)]
    omega
  have htd0w : (0 : Int) ≤ mapSize.w.tdiv 2 := by
    rw [Int.tdiv_eq_ediv (by omega) (by omega)]
    exact Int.ediv_nonneg (by omega) (by omega)
  have htd0h : (0 : Int) ≤ mapSize.h.tdiv 2 := by
    rw [Int.tdiv_eq_ediv (by omega) (by omega)]
    exact Int.ediv_nonneg (by omega) (by omega)
  simp only [getPosition, hvalid, Bool.not_true, Bool.false_eq_true, if_false]
  rw [hsrc]
  dsimp only
  rw [hts]
  rw [ratTrunc_mul_div (mapSize.w.tdiv 2) _ mapSize.w htd0w hsw0 hmw0,
    ratTrunc_mul_div (mapSize.h.tdiv 2) _ mapSize.h htd0h hsh0 hmh0]
  generalize hswg : (sizeScaleKeepAspect mapSize
      ⟨s.visibleDimension.w * 32, s.visibleDimension.h * 32⟩).w = sw
      at hsw0 hswW' ⊢
  generalize hshg : (sizeScaleKeepAspect mapSize
      ⟨s.visibleDimension.w * 32, s.visibleDimension.h * 32⟩).h = sh2
      at hsh0 hshH' ⊢
  have hcoxX := cox_bounds Vx sw mapSize.w hVx2 (by omega) hsw0 (by omega)
  have hcoxY := cox_bounds Vy sh2 mapSize.h hVy2 (by omega) hsh0 (by omega)
  rw [← hVx1] at hcoxX
  rw [← hVy1] at hcoxY
  have hcam := (Pos.isValid_iff _).mp hvalid
  have hM : MAX_Z = (15 : Int) := rfl
  split_ifs with h1 h2
  · exfalso
    omega
  · exfalso
    simp only [Pos.isValid, Bool.not_eq_true', decide_eq_false_iff_not] at h2
    refine absurd ⟨?_, ?_, ?_, ?_⟩ h2 <;> omega
  · refine ⟨?_, ?_, ?_⟩ <;> dsimp only <;> omega

theorem C9_getPosition_center_roundtrip_witness :
    ((getPosition emptyWorld sampleState ((⟨480, 352⟩ : SizeT).w.tdiv 2,
        (⟨480, 352⟩ : SizeT).h.tdiv 2) ⟨480, 352⟩).x -
        (getCameraPosition sampleState).x).natAbs ≤ 1 ∧
    ((getPosition emptyWorld sampleState ((⟨480, 352⟩ : SizeT).w.tdiv 2,
        (⟨480, 352⟩ : SizeT).h.tdiv 2) ⟨480, 352⟩).y -
        (getCameraPosition sampleState).y).natAbs ≤ 1 ∧
    (getPosition emptyWorld sampleState ((⟨480, 352⟩ : SizeT).w.tdiv 2,
        (⟨480, 352⟩ : SizeT).h.tdiv 2) ⟨480, 352⟩).z =
      (getCameraPosition sampleState).z :=
  C9_getPosition_center_roundtrip emptyWorld sampleState ⟨480, 352⟩
    (by decide) (by decide) (by decide) (by decide) (by decide) (by decide)
    (by decide) (by decide) (by decide) (by decide) (by decide) (by decide)
    (by decide) (by decide) (by decide) (by decide) (by decide)

/-! ### C10 -/

/-- C10: calling `setShader` with the shader that is already the active
shader is a complete no-op regardless of the fade durations: the fade timer,
both durations, the pending next shader and the switch-done flag are all left
unchanged. -/
theorem C10_setShader_same_shader_noop (s : MapViewState) (now : Int)
    (fadein fadeout : ℚ) :
    setShader s now s.shader fadein fadeout = s := by
  simp [setShader]

/-! ### C8 -/

/-- C8: starting from a zero residual pixel offset with a fixed camera,
`move(32, 0)` (SPRITE_SIZE = 32) shifts the camera by exactly one tile in x
and zeroes the residual x offset, while `move(10, 0)` leaves the camera tile
unchanged and leaves the residual x offset at 10. -/
theorem C8_move_pixel_pan (s : MapViewState) (hf : s.follow = false)
    (hx : s.moveOffsetX = 0) (hy : s.moveOffsetY = 0) :
    ((getCameraPosition (move s 32 0)).x = (getCameraPosition s).x + 1 ∧
      (move s 32 0).moveOffsetX = 0) ∧
    (getCameraPosition (move s 10 0) = getCameraPosition s ∧
      (move s 10 0).moveOffsetX = 10) := by
  have h32d : (32 : Int).tdiv 32 = 1 := by decide
  have h32m : (32 : Int).tmod 32 = 0 := by decide
  have h10d : (10 : Int).tdiv 32 = 0 := by decide
  simp [move, getCameraPosition, hf, hx, hy, SPRITE_SIZE, h32d, h32m, h10d]

theorem C8_move_pixel_pan_witness :
    sampleState.follow = false ∧ sampleState.moveOffsetX = 0 ∧
    sampleState.moveOffsetY = 0 ∧
    (((getCameraPosition (move sampleState 32 0)).x =
        (getCameraPosition sampleState).x + 1 ∧
      (move sampleState 32 0).moveOffsetX = 0) ∧
    (getCameraPosition (move sampleState 10 0) = getCameraPosition sampleState ∧
      (move sampleState 10 0).moveOffsetX = 10)) :=
  ⟨rfl, rfl, rfl, C8_move_pixel_pan sampleState rfl rfl rfl⟩

/-! ### C3 -/

/-- C3: for every size argument whose width or height is even, or that is
smaller than 3×3, or whose derived buffer size (visible dimension plus 3,
times tile size) exceeds the maximum texture size, `setVisibleDimension` is a
no-op on a geometry-consistent state: an error is logged and the visible
dimension, draw dimension, tile size, virtual center offset and aware range
are all unchanged. -/
theorem C3_setVisibleDimension_rejects (w : World) (s : MapViewState) (d : SizeT)
    (hs : validGeometryState w s)
    (hbad : d.w.tmod 2 ≠ 1 ∨ d.h.tmod 2 ≠ 1 ∨ d.w < 3 ∨ d.h < 3 ∨
      w.maxTextureSize < (d.w + 3) * (SPRITE_SIZE * s.scaleFactor) ∨
      w.maxTextureSize < (d.h + 3) * (SPRITE_SIZE * s.scaleFactor)) :
    (setVisibleDimension w s d).visibleDimension = s.visibleDimension ∧
    (setVisibleDimension w s d).drawDimension = s.drawDimension ∧
    (setVisibleDimension w s d).tileSize = s.tileSize ∧
    (setVisibleDimension w s d).virtualCenterOffsetX = s.virtualCenterOffsetX ∧
    (setVisibleDimension w s d).virtualCenterOffsetY = s.virtualCenterOffsetY ∧
    (setVisibleDimension w s d).awareLeft = s.awareLeft ∧
    (setVisibleDimension w s d).awareRight = s.awareRight ∧
    (setVisibleDimension w s d).awareTop = s.awareTop ∧
    (setVisibleDimension w s d).awareBottom = s.awareBottom ∧
    (setVisibleDimension w s d).errors.length = s.errors.length + 1 := by
  obtain ⟨ho1, ho2, h3w, h3h, hbw, hbh⟩ := hs
  have hne : ¬(d = s.visibleDimension) := by
    rintro rfl
    rcases hbad with h | h | h | h | h | h
    · exact h ho1
    · exact h ho2
    · omega
    · omega
    · exact absurd hbw (not_le.mpr h)
    · exact absurd hbh (not_le.mpr h)
  simp only [setVisibleDimension]
  rw [if_neg hne]
  by_cases hp : d.w.tmod 2 ≠ 1 ∨ d.h.tmod 2 ≠ 1
  · rw [if_pos hp]; simp
  · rw [if_neg hp]
    push_neg at hp
    by_cases hm : sizeBelowMin d = true
    · rw [if_pos hm]; simp
    · rw [if_neg hm]
      simp only [sizeBelowMin, decide_eq_true_eq] at hm
      push_neg at hm
      have hbig : w.maxTextureSize < (d.w + 3) * (SPRITE_SIZE * s.scaleFactor) ∨
          w.maxTextureSize < (d.h + 3) * (SPRITE_SIZE * s.scaleFactor) := by
        rcases hbad with h | h | h | h | h | h
        · exact absurd hp.1 h
        · exact absurd hp.2 h
        · omega
        · omega
        · exact Or.inl h
        · exact Or.inr h
      simp only [updateGeometry]
      rw [if_pos hbig]
      simp

theorem C3_setVisibleDimension_rejects_witness :
    validGeometryState emptyWorld sampleState ∧
    ((4 : Int).tmod 2 ≠ 1 ∨ (4 : Int).tmod 2 ≠ 1 ∨ (4 : Int) < 3 ∨ (4 : Int) < 3 ∨
      emptyWorld.maxTextureSize <
        ((4 : Int) + 3) * (SPRITE_SIZE * sampleState.scaleFactor) ∨
      emptyWorld.maxTextureSize <
        ((4 : Int) + 3) * (SPRITE_SIZE * sampleState.scaleFactor)) ∧
    (setVisibleDimension emptyWorld sampleState ⟨4, 4⟩).visibleDimension =
      sampleState.visibleDimension :=
  ⟨by unfold validGeometryState; decide, by decide,
    (C3_setVisibleDimension_rejects emptyWorld sampleState ⟨4, 4⟩
      (by unfold validGeometryState; decide) (by decide)).1⟩

/-! ### C4 -/

/-- C4: for every size with both components odd and at least 3 whose derived
buffer size fits within the maximum texture size, `setVisibleDimension`
succeeds on a state satisfying the draw-dimension invariant: afterwards the
visible dimension equals the request and the draw dimension exceeds it by 3
in each component. -/
theorem C4_setVisibleDimension_succeeds (w : World) (s : MapViewState) (d : SizeT)
    (hinvW : s.drawDimension.w = s.visibleDimension.w + 3)
    (hinvH : s.drawDimension.h = s.visibleDimension.h + 3)
    (hw : d.w.tmod 2 = 1) (hh : d.h.tmod 2 = 1)
    (h3w : 3 ≤ d.w) (h3h : 3 ≤ d.h)
    (hbw : (d.w + 3) * (SPRITE_SIZE * s.scaleFactor) ≤ w.maxTextureSize)
    (hbh : (d.h + 3) * (SPRITE_SIZE * s.scaleFactor) ≤ w.maxTextureSize) :
    (setVisibleDimension w s d).visibleDimension = d ∧
    (setVisibleDimension w s d).drawDimension = SizeT.mk (d.w + 3) (d.h + 3) := by
  by_cases he : d = s.visibleDimension
  · simp only [setVisibleDimension, if_pos he]
    refine ⟨he.symm, ?_⟩
    have : s.drawDimension = SizeT.mk s.drawDimension.w s.drawDimension.h := rfl
    rw [this, hinvW, hinvH, he]
  · simp only [setVisibleDimension]
    rw [if_neg he]
    rw [if_neg (by push_neg; exact ⟨hw, hh⟩ :
      ¬(d.w.tmod 2 ≠ 1 ∨ d.h.tmod 2 ≠ 1))]
    rw [if_neg (by simp [sizeBelowMin]; omega : ¬(sizeBelowMin d = true))]
    simp only [updateGeometry]
    rw [if_neg (by push_neg; exact ⟨hbw, hbh⟩ :
      ¬(w.maxTextureSize < (d.w + 3) * (SPRITE_SIZE * s.scaleFactor) ∨
        w.maxTextureSize < (d.h + 3) * (SPRITE_SIZE * s.scaleFactor)))]
    simp

theorem C4_setVisibleDimension_succeeds_witness :
    sampleState.drawDimension.w = sampleState.visibleDimension.w + 3 ∧
    sampleState.drawDimension.h = sampleState.visibleDimension.h + 3 ∧
    (setVisibleDimension emptyWorld sampleState ⟨17, 13⟩).visibleDimension =
      SizeT.mk 17 13 ∧
    (setVisibleDimension emptyWorld sampleState ⟨17, 13⟩).drawDimension =
      SizeT.mk 20 16 :=
  ⟨rfl, rfl,
    (C4_setVisibleDimension_succeeds emptyWorld sampleState ⟨17, 13⟩ rfl rfl
      (by decide) (by decide) (by decide) (by decide) (by decide) (by decide)).1,
    (C4_setVisibleDimension_succeeds emptyWorld sampleState ⟨17, 13⟩ rfl rfl
      (by decide) (by decide) (by decide) (by decide) (by decide) (by decide)).2⟩

theorem getCameraPosition_setRectCache (s : MapViewState) (a : Option RectT)
    (b : RectT) :
    getCameraPosition { s with rectCacheRect := a, rectCacheSrcRect := b } =
      getCameraPosition s := rfl

theorem getCameraPosition_setFireFields (s : MapViewState) (b : Bool) (q : ℚ) :
    getCameraPosition { s with refreshVisibleTiles := b, lastFadeLevel := q } =
      getCameraPosition s := rfl

theorem getCameraPosition_drawPre (w : World) (now : Int) (rect : RectT)
    (s : MapViewState) :
    getCameraPosition (drawPre w now rect s) = getCameraPosition s := by
  simp only [drawPre]
  split <;> split <;>
    simp only [getCameraPosition_setRectCache, updateVisibleThings_camera]

theorem getCameraPosition_drawAfterFade (w : World) (now : Int) (rect : RectT)
    (s : MapViewState) :
    getCameraPosition (drawAfterFade w now rect s) = getCameraPosition s := by
  simp only [drawAfterFade]
  split
  · rw [getCameraPosition_setFireFields]
    exact getCameraPosition_drawPre w now rect s
  · exact getCameraPosition_drawPre w now rect s

/-! ### C7 -/

/-- C7: for every frame in which the camera position is invalid, `draw` still
performs the floor drawing pass, but the creature-information pass, the light
pass and the text pass are all skipped for that frame. -/
theorem C7_draw_invalid_camera_skips (w : World) (now : Int) (rect : RectT)
    (s : MapViewState) (h : (getCameraPosition s).isValid = false) :
    (draw w now rect s).floorPass = true ∧
    (draw w now rect s).creatureInfoPass = false ∧
    (draw w now rect s).lightPass = false ∧
    (draw w now rect s).textPass = false := by
  have hcam : (getCameraPosition (drawAfterFade w now rect s)).isValid = false := by
    rw [getCameraPosition_drawAfterFade]; exact h
  simp only [draw]
  rw [if_pos (by rw [hcam]; rfl : (!(getCameraPosition
    (drawAfterFade w now rect s)).isValid) = true)]
  exact ⟨rfl, rfl, rfl, rfl⟩

theorem C7_draw_invalid_camera_skips_witness :
    (getCameraPosition invalidCameraState).isValid = false ∧
    ((draw emptyWorld 0 ⟨0, 0, 480, 352⟩ invalidCameraState).floorPass = true ∧
     (draw emptyWorld 0 ⟨0, 0, 480, 352⟩ invalidCameraState).creatureInfoPass = false ∧
     (draw emptyWorld 0 ⟨0, 0, 480, 352⟩ invalidCameraState).lightPass = false ∧
     (draw emptyWorld 0 ⟨0, 0, 480, 352⟩ invalidCameraState).textPass = false) :=
  ⟨by decide, C7_draw_invalid_camera_skips emptyWorld 0 ⟨0, 0, 480, 352⟩
    invalidCameraState (by decide)⟩

/-! ### C6 lemmas: the only writes of the last observed fade level -/

theorem uvtAfterFade_lastFade (cam : Pos) (now pf lf : Int) (s : MapViewState)
    (h : uvtShowingFloor cam pf s = false) :
    (uvtAfterFade cam now pf lf s).lastFadeLevel = s.lastFadeLevel := by
  unfold uvtAfterFade
  split_ifs with h1 h2 h3
  · rfl
  · rfl
  · exfalso
    simp only [uvtShowingFloor, h1, h2, h3] at h
    simp at h
  · rfl

theorem uvt_core_lastFade (w : World) (cam : Pos) (now pf lf : Int)
    (s2 : MapViewState)
    (h : uvtShowingFloor cam pf (uvtAfterCamera w cam s2) = false) :
    (uvtAfterScan w cam lf
        { uvtAfterFade cam now pf lf (uvtAfterCamera w cam s2) with
          lastCameraPosition := cam }).lastFadeLevel = s2.lastFadeLevel := by
  rw [(uvtAfterScan_fields w cam lf _).2.2.2.2.2.2]
  rw [show ({ uvtAfterFade cam now pf lf (uvtAfterCamera w cam s2) with
      lastCameraPosition := cam } : MapViewState).lastFadeLevel =
    (uvtAfterFade cam now pf lf (uvtAfterCamera w cam s2)).lastFadeLevel from rfl]
  rw [uvtAfterFade_lastFade cam now pf lf _ h]
  exact (uvtAfterCamera_fields w cam s2).2.2.2.2

theorem uvtFlagFalse_lastFade (w : World) (now : Int) (s : MapViewState)
    (h : (updateVisibleThingsFlag w now s).2 = false) :
    (updateVisibleThings w now s).lastFadeLevel = s.lastFadeLevel := by
  by_cases hv : (getCameraPosition s).isValid = true
  · unfold updateVisibleThings
    unfold updateVisibleThingsFlag at h ⊢
    simp only [hv, Bool.not_true, Bool.false_eq_true, if_false] at h ⊢
    rw [uvt_core_lastFade w (getCameraPosition s) now _ _ _ h]
    rw [(uvtAfterLock_fields (getCameraPosition s) (uvtAfterClear s)).2.2.2.2.2.2,
      (uvtAfterClear_fields s).2.2.2.2.2.2]
  · rw [updateVisibleThings_invalidCam w now s (by simpa using hv)]

theorem rectCacheStep_lastFade (w : World) (rect : RectT) (t : MapViewState) :
    (if t.rectCacheRect ≠ some rect then
       { t with rectCacheRect := some rect,
                rectCacheSrcRect := calcFramebufferSource w t ⟨rect.w, rect.h⟩ }
     else t).lastFadeLevel = t.lastFadeLevel := by
  split <;> rfl

theorem drawPre_lastFade (w : World) (now : Int) (rect : RectT) (s : MapViewState)
    (hrev : (s.refreshVisibleTiles && (updateVisibleThingsFlag w now s).2) = false) :
    (drawPre w now rect s).lastFadeLevel = s.lastFadeLevel := by
  have hstep : (if s.refreshVisibleTiles = true then updateVisibleThings w now s
      else s).lastFadeLevel = s.lastFadeLevel := by
    split
    · rename_i hr
      rw [hr, Bool.true_and] at hrev
      exact uvtFlagFalse_lastFade w now s hrev
    · rfl
  simp only [drawPre]
  rw [rectCacheStep_lastFade]
  exact hstep

theorem draw_state (w : World) (now : Int) (rect : RectT) (s : MapViewState) :
    (draw w now rect s).state = drawAfterFade w now rect s := by
  simp only [draw]
  split <;> rfl

theorem draw_fired_eq (w : World) (now : Int) (rect : RectT) (s : MapViewState) :
    (draw w now rect s).firedFadeIn = drawFired w now rect s := by
  simp only [draw]
  split <;> rfl

theorem drawAfterFade_of_not_fired (w : World) (now : Int) (rect : RectT)
    (s : MapViewState) (h : drawFired w now rect s = false) :
    drawAfterFade w now rect s = drawPre w now rect s := by
  unfold drawAfterFade
  rw [if_neg (by rw [h]; exact Bool.false_ne_true)]

theorem drawFired_of_lastFade_one (w : World) (now : Int) (rect : RectT)
    (s : MapViewState) (h : (drawPre w now rect s).lastFadeLevel = 1) :
    drawFired w now rect s = false := by
  unfold drawFired
  by_cases hlvl : getFadeLevel (drawPre w now rect s) now
      (drawPre w now rect s).cachedFirstVisibleFloor = 1
  · simp [h, hlvl]
  · simp [hlvl]

theorem step_preserve_lastFade (w : World) (s : MapViewState) (ev : MapViewEvent)
    (hok : eventOK ev) (hrev : eventReveals w s ev = false)
    (h1 : s.lastFadeLevel = 1) :
    (stepEvent w s ev).lastFadeLevel = 1 ∧ eventFires w s ev = false := by
  cases ev with
  | mutate f => exact ⟨(hok s).trans h1, rfl⟩
  | frame rect now =>
    have hrev' : (s.refreshVisibleTiles && (updateVisibleThingsFlag w now s).2)
        = false := by simpa [eventReveals] using hrev
    have hpre : (drawPre w now rect s).lastFadeLevel = 1 :=
      (drawPre_lastFade w now rect s hrev').trans h1
    have hf := drawFired_of_lastFade_one w now rect s hpre
    refine ⟨?_, ?_⟩
    · show (draw w now rect s).state.lastFadeLevel = 1
      rw [draw_state, drawAfterFade_of_not_fired w now rect s hf]
      exact hpre
    · show (draw w now rect s).firedFadeIn = false
      rw [draw_fired_eq]
      exact hf

theorem firesAt_zero (w : World) (s : MapViewState) (ev : MapViewEvent)
    (rest : List MapViewEvent) :
    firesAt w s (ev :: rest) 0 ↔ eventFires w s ev = true := by
  simp [firesAt, runEvents]

theorem firesAt_succ (w : World) (s : MapViewState) (ev : MapViewEvent)
    (rest : List MapViewEvent) (n : Nat) :
    firesAt w s (ev :: rest) (n + 1) ↔ firesAt w (stepEvent w s ev) rest n := by
  simp [firesAt, runEvents, List.take_succ_cons]

theorem revealsAt_zero (w : World) (s : MapViewState) (ev : MapViewEvent)
    (rest : List MapViewEvent) :
    revealsAt w s (ev :: rest) 0 ↔ eventReveals w s ev = true := by
  simp [revealsAt, runEvents]

theorem revealsAt_succ (w : World) (s : MapViewState) (ev : MapViewEvent)
    (rest : List MapViewEvent) (n : Nat) :
    revealsAt w s (ev :: rest) (n + 1) ↔ revealsAt w (stepEvent w s ev) rest n := by
  simp [revealsAt, runEvents, List.take_succ_cons]

theorem no_fire_until_reveal (w : World) : ∀ (evs : List MapViewEvent)
    (s : MapViewState), s.lastFadeLevel = 1 → (∀ ev ∈ evs, eventOK ev) →
    (∀ k, ¬revealsAt w s evs k) → ∀ n, ¬firesAt w s evs n := by
  intro evs
  induction evs with
  | nil =>
    rintro s _ _ _ n ⟨ev, he, _⟩
    simp at he
  | cons ev rest ih =>
    intro s h1 hok hrev n
    have hr0 : eventReveals w s ev = false := by
      have h0 := hrev 0
      rw [revealsAt_zero] at h0
      exact Bool.eq_false_iff.mpr h0
    have hstep := step_preserve_lastFade w s ev (hok ev (List.mem_cons_self ev rest))
      hr0 h1
    cases n with
    | zero =>
      rw [firesAt_zero]
      simp [hstep.2]
    | succ n =>
      rw [firesAt_succ]
      refine ih (stepEvent w s ev) hstep.1 ?_ ?_ n
      · intro e he
        exact hok e (List.mem_cons_of_mem _ he)
      · intro k hk
        exact hrev (k + 1) ((revealsAt_succ w s ev rest k).mpr hk)

/-! ### C2 lemmas: characterizing the anti-diagonal enumeration -/

theorem diagIxStart_eq (d h : Nat) (hh : h ≤ 2 ^ 15) (hd : d ≤ 2 ^ 16) :
    diagIxStart d h = (d : Int) - (h : Int) := by
  simp only [diagIxStart, diagAdvance, toInt32, Nat.max_zero]
  split_ifs <;> omega

theorem diagIyStart_eq (d h : Nat) (hh : h ≤ 2 ^ 15) (hd : d ≤ 2 ^ 16) :
    diagIyStart d h = (h : Int) := by
  simp only [diagIyStart, diagAdvance, toInt32, Nat.max_zero]
  split_ifs <;> omega

theorem innerDiag_mem (w : Int) : ∀ (fuel : Nat) (ix iy : Int) (c : Int × Int),
    c ∈ innerDiag w ix iy fuel →
    c.1 + c.2 = ix + iy ∧ ix ≤ c.1 ∧ c.1 < w ∧ 0 ≤ c.2 ∧ c.2 ≤ iy := by
  intro fuel
  induction fuel with
  | zero => intro ix iy c hc; simp [innerDiag] at hc
  | succ n ih =>
    intro ix iy c hc
    rw [innerDiag] at hc
    split_ifs at hc with h
    · rcases List.mem_cons.mp hc with rfl | hc
      · exact ⟨rfl, le_refl _, h.2, h.1, le_refl _⟩
      · obtain ⟨hs, hx, hw, hy0, hyi⟩ := ih (ix + 1) (iy - 1) c hc
        exact ⟨by omega, by omega, hw, hy0, by omega⟩
    · simp at hc

theorem innerDiag_count_one (w : Int) : ∀ (fuel : Nat) (ix iy x y : Int),
    ix ≤ x → x + y = ix + iy → 0 ≤ y → y ≤ iy → x < w → (iy - y).toNat < fuel →
    (innerDiag w ix iy fuel).count (x, y) = 1 := by
  intro fuel
  induction fuel with
  | zero => intro ix iy x y _ _ _ _ _ hf; exact absurd hf (Nat.not_lt_zero _)
  | succ n ih =>
    intro ix iy x y h1 h2 h3 h4 h5 hf
    rw [innerDiag]
    rw [if_pos (⟨by omega, by omega⟩ : 0 ≤ iy ∧ ix < w)]
    by_cases hxy : x = ix ∧ y = iy
    · obtain ⟨rfl, rfl⟩ := hxy
      rw [List.count_cons_self]
      have hz : (innerDiag w (x + 1) (y - 1) n).count (x, y) = 0 := by
        rw [List.count_eq_zero]
        intro hmem
        have := innerDiag_mem w n (x + 1) (y - 1) (x, y) hmem
        omega
      omega
    · rw [List.count_cons_of_ne (by simp only [ne_eq, Prod.mk.injEq]; omega)]
      exact ih (ix + 1) (iy - 1) x y (by omega) (by omega) h3 (by omega) h5 (by omega)

theorem pairwise_of_mem_all {α : Type} {R : α → α → Prop} :
    ∀ (l : List α), (∀ x ∈ l, ∀ y ∈ l, R x y) → l.Pairwise R := by
  intro l
  induction l with
  | nil => intro _; exact List.Pairwise.nil
  | cons a t ih =>
    intro hl
    exact List.Pairwise.cons (fun y hy => hl a (by simp) y (by simp [hy]))
      (ih fun x hx y hy => hl x (by simp [hx]) y (by simp [hy]))

theorem pairwise_flatMap {α β : Type} (R : β → β → Prop) (l : List α)
    (f : α → List β) (hin : ∀ a ∈ l, (f a).Pairwise R)
    (hcross : l.Pairwise (fun a b => ∀ x ∈ f a, ∀ y ∈ f b, R x y)) :
    (l.flatMap f).Pairwise R := by
  induction l with
  | nil => simp
  | cons a t ih =>
    rw [List.flatMap_cons, List.pairwise_append]
    obtain ⟨hhead, htail⟩ := List.pairwise_cons.mp hcross
    refine ⟨hin a (by simp), ih (fun b hb => hin b (by simp [hb])) htail, ?_⟩
    intro x hx y hy
    obtain ⟨b, hb, hyb⟩ := List.mem_flatMap.mp hy
    exact hhead b hb x hx y hyb

theorem count_flatMap_eq_sum {α β : Type} [BEq β] (l : List α)
    (f : α → List β) (b : β) :
    ((l.flatMap f).count b) = (l.map fun a => (f a).count b).sum := by
  induction l with
  | nil => simp
  | cons a t ih => simp [List.flatMap_cons, List.count_append, ih]

theorem sum_map_range_indicator (g : Nat → Nat) :
    ∀ (n k : Nat), k < n → g k = 1 → (∀ d, d < n → d ≠ k → g d = 0) →
    ((List.range n).map g).sum = 1 := by
  intro n
  induction n with
  | zero => intro k hk; omega
  | succ m ih =>
    intro k hk h1 h0
    rw [List.range_succ, List.map_append, List.sum_append]
    by_cases hkm : k = m
    · subst hkm
      have hz : ((List.range k).map g).sum = 0 := by
        apply List.sum_eq_zero
        intro x hx
        obtain ⟨d, hd, rfl⟩ := List.mem_map.mp hx
        simp only [List.mem_range] at hd
        exact h0 d (by omega) (by omega)
      simp [hz, h1]
    · rw [ih k (by omega) h1 (fun d hd hdk => h0 d (by omega) hdk)]
      simp [h0 m (by omega) (by omega)]

theorem diagCells_count_inGrid (w h : Nat) (hw : 1 ≤ w) (hh : 1 ≤ h)
    (hwu : w ≤ 2 ^ 15) (hhu : h ≤ 2 ^ 15) (x y : Int)
    (hx0 : 0 ≤ x) (hxw : x < (w : Int)) (hy0 : 0 ≤ y) (hyh : y < (h : Int)) :
    (diagCells w h).count (x, y) = 1 := by
  unfold diagCells
  rw [count_flatMap_eq_sum]
  refine sum_map_range_indicator _ (w + h - 1) (x + y).toNat ?_ ?_ ?_
  · omega
  · have hd : ((x + y).toNat : Int) = x + y := by omega
    rw [diagIxStart_eq _ h hhu (by omega), diagIyStart_eq _ h hhu (by omega)]
    exact innerDiag_count_one (w : Int) (h + 2) _ _ x y (by omega) (by omega) hy0
      (by omega) hxw (by omega)
  · intro d hdn hd
    rw [List.count_eq_zero]
    intro hmem
    rw [diagIxStart_eq d h hhu (by omega), diagIyStart_eq d h hhu (by omega)] at hmem
    have := innerDiag_mem (w : Int) (h + 2) _ _ (x, y) hmem
    omega

theorem diagCells_mem_facts (w h : Nat) (hw : 1 ≤ w) (hh : 1 ≤ h)
    (hwu : w ≤ 2 ^ 15) (hhu : h ≤ 2 ^ 15) (c : Int × Int)
    (hc : c ∈ diagCells w h) :
    ∃ d : Nat, d < w + h - 1 ∧ c.1 + c.2 = (d : Int) ∧ (d : Int) - h ≤ c.1 ∧
      c.1 < (w : Int) ∧ 0 ≤ c.2 ∧ c.2 ≤ (h : Int) := by
  unfold diagCells at hc
  obtain ⟨d, hd, hcd⟩ := List.mem_flatMap.mp hc
  have hdr : d < w + h - 1 := List.mem_range.mp hd
  rw [diagIxStart_eq d h hhu (by omega), diagIyStart_eq d h hhu (by omega)] at hcd
  have := innerDiag_mem (w : Int) (h + 2) _ _ c hcd
  exact ⟨d, hdr, by omega, by omega, this.2.2.1, this.2.2.2.1, by omega⟩

/-! ### C5 -/

/-- C5: for every camera position (valid or invalid), lock state and world,
`calcFirstVisibleFloor` (with either value of its look-through flag) never
exceeds `calcLastVisibleFloor` after both are clamped to `[0, MAX_Z]`; and
`updateVisibleThings` — which forces the cached last floor up to the cached
first when the computation would invert them — preserves
`cachedFirstVisibleFloor ≤ cachedLastVisibleFloor`. -/
theorem C5_floor_range_order (w : World) (now : Int) (s : MapViewState) (b : Bool)
    (h : s.cachedFirstVisibleFloor ≤ s.cachedLastVisibleFloor) :
    calcFirstVisibleFloor w s b ≤ calcLastVisibleFloor s ∧
    ((updateVisibleThings w now s).cachedFirstVisibleFloor ≤
      (updateVisibleThings w now s).cachedLastVisibleFloor) := by
  refine ⟨calcFirst_le_calcLast w s b, ?_⟩
  by_cases hv : (getCameraPosition s).isValid = true
  · unfold updateVisibleThings updateVisibleThingsFlag
    simp only [hv, Bool.not_true, Bool.false_eq_true, if_false]
    refine uvt_core_cached_order w (getCameraPosition s) now _ _ _ ?_
    rw [(uvtAfterLock_fields (getCameraPosition s) (uvtAfterClear s)).2.2.2.2.1,
      (uvtAfterClear_fields s).2.2.2.2.1,
      (uvtAfterLock_fields (getCameraPosition s) (uvtAfterClear s)).2.2.2.2.2.1,
      (uvtAfterClear_fields s).2.2.2.2.2.1]
    exact h
  · rw [updateVisibleThings_invalidCam w now s (by simpa using hv)]
    exact h

theorem C5_floor_range_order_witness :
    sampleState.cachedFirstVisibleFloor ≤ sampleState.cachedLastVisibleFloor ∧
    (calcFirstVisibleFloor emptyWorld sampleState true ≤
      calcLastVisibleFloor sampleState ∧
    ((updateVisibleThings emptyWorld 0 sampleState).cachedFirstVisibleFloor ≤
      (updateVisibleThings emptyWorld 0 sampleState).cachedLastVisibleFloor)) :=
  ⟨by decide, C5_floor_range_order emptyWorld 0 sampleState true (by decide)⟩

/-! ### C6 -/

/-- C6: with floor fading enabled, the fade-in-finished notification fires
in `draw` only at a frame where the topmost visible floor's fade level has
just reached exactly 1 (it equals 1 and differs from the last observed
level); immediately after firing the last observed level is 1; and from any
state whose last observed level is 1, no sequence of frames and public
mutator calls fires again until a floor-reveal boundary shift (the
showing-floor branch of `updateVisibleThings`) resets the last observed
level. -/
theorem C6_fade_in_finished (w : World) :
    (∀ (now : Int) (rect : RectT) (s : MapViewState),
      (draw w now rect s).firedFadeIn = true →
        canFloorFade (drawPre w now rect s) = true ∧
        getFadeLevel (drawPre w now rect s) now
          (drawPre w now rect s).cachedFirstVisibleFloor = 1 ∧
        ¬((drawPre w now rect s).lastFadeLevel = 1)) ∧
    (∀ (now : Int) (rect : RectT) (s : MapViewState),
      (draw w now rect s).firedFadeIn = true →
        (draw w now rect s).state.lastFadeLevel = 1) ∧
    (∀ (s : MapViewState) (evs : List MapViewEvent),
      s.lastFadeLevel = 1 → (∀ ev ∈ evs, eventOK ev) →
      (∀ k, ¬revealsAt w s evs k) → ∀ n, ¬firesAt w s evs n) := by
  refine ⟨?_, ?_, fun s evs => no_fire_until_reveal w evs s⟩
  · intro now rect s h
    rw [draw_fired_eq] at h
    unfold drawFired at h
    simp only [Bool.and_eq_true, decide_eq_true_eq] at h
    obtain ⟨hc, hne, hlvl⟩ := h
    exact ⟨hc, hlvl, hlvl ▸ hne⟩
  · intro now rect s h
    rw [draw_fired_eq] at h
    have h2 := h
    unfold drawFired at h2
    simp only [Bool.and_eq_true, decide_eq_true_eq] at h2
    rw [draw_state]
    unfold drawAfterFade
    rw [if_pos h]
    exact h2.2.2

theorem C6_fade_in_finished_witness :
    ((draw emptyWorld 2000000 ⟨0, 0, 480, 352⟩ fadingState).firedFadeIn = true ∧
      (canFloorFade (drawPre emptyWorld 2000000 ⟨0, 0, 480, 352⟩ fadingState) = true ∧
       getFadeLevel (drawPre emptyWorld 2000000 ⟨0, 0, 480, 352⟩ fadingState) 2000000
         (drawPre emptyWorld 2000000 ⟨0, 0, 480, 352⟩
           fadingState).cachedFirstVisibleFloor = 1 ∧
       ¬((drawPre emptyWorld 2000000 ⟨0, 0, 480, 352⟩
           fadingState).lastFadeLevel = 1))) ∧
    ((draw emptyWorld 2000000 ⟨0, 0, 480, 352⟩ fadingState).state.lastFadeLevel = 1) ∧
    ({ fadingState with lastFadeLevel := 1 }.lastFadeLevel = 1 ∧
      ∀ n, ¬firesAt emptyWorld { fadingState with lastFadeLevel := 1 }
        [MapViewEvent.frame ⟨0, 0, 480, 352⟩ 3000000] n) := by
  have hlvl : getFadeLevel (drawPre emptyWorld 2000000 ⟨0, 0, 480, 352⟩ fadingState)
      2000000 (drawPre emptyWorld 2000000 ⟨0, 0, 480, 352⟩
        fadingState).cachedFirstVisibleFloor = 1 := by
    rw [show (drawPre emptyWorld 2000000 ⟨0, 0, 480, 352⟩
        fadingState).cachedFirstVisibleFloor = (2 : Int) from rfl]
    rw [show getFadeLevel (drawPre emptyWorld 2000000 ⟨0, 0, 480, 352⟩ fadingState)
        2000000 2 = getFadeLevel fadingState 2000000 2 from rfl]
    unfold getFadeLevel
    rw [show elapsedMillis (fadingState.fadingFloorStart 2) 2000000 = 2000 from by
      decide]
    rw [show fadingState.floorFading = 1000 from rfl]
    norm_num [clampQ]
  have hfire : (draw emptyWorld 2000000 ⟨0, 0, 480, 352⟩ fadingState).firedFadeIn
      = true := by
    rw [draw_fired_eq]
    unfold drawFired
    simp only [Bool.and_eq_true, decide_eq_true_eq]
    refine ⟨by decide, ?_, ?_⟩
    · rw [show (drawPre emptyWorld 2000000 ⟨0, 0, 480, 352⟩
          fadingState).lastFadeLevel = (0 : ℚ) from rfl]
      rw [hlvl]
      norm_num
    · exact hlvl
  have hok : ∀ ev ∈ [MapViewEvent.frame (RectT.mk 0 0 480 352) 3000000], eventOK ev := by
    intro ev hev
    cases hev with
    | head => exact trivial
    | tail _ h => cases h
  have hnorev : ∀ k, ¬revealsAt emptyWorld { fadingState with lastFadeLevel := 1 }
      [MapViewEvent.frame ⟨0, 0, 480, 352⟩ 3000000] k := by
    rintro k ⟨ev, he, hr⟩
    cases k with
    | zero =>
      simp only [List.getElem?_cons_zero, Option.some.injEq] at he
      subst he
      rw [show eventReveals emptyWorld
        (runEvents emptyWorld { fadingState with lastFadeLevel := 1 }
          (List.take 0 [MapViewEvent.frame ⟨0, 0, 480, 352⟩ 3000000]))
        (MapViewEvent.frame ⟨0, 0, 480, 352⟩ 3000000) = false from rfl] at hr
      exact Bool.false_ne_true hr
    | succ k => simp at he
  exact ⟨⟨hfire, (C6_fade_in_finished emptyWorld).1 2000000 ⟨0, 0, 480, 352⟩
      fadingState hfire⟩,
    (C6_fade_in_finished emptyWorld).2.1 2000000 ⟨0, 0, 480, 352⟩ fadingState hfire,
    rfl,
    (C6_fade_in_finished emptyWorld).2.2 { fadingState with lastFadeLevel := 1 }
      [MapViewEvent.frame ⟨0, 0, 480, 352⟩ 3000000] rfl hok hnorev⟩

/-! ### C1 counterexample and C2 counterexample -/

set_option maxRecDepth 100000

/-- C1 counterexample: a completed run of `updateVisibleThings` with a valid,
unchanged camera (a refresh triggered by a tile update rather than a camera
move, here in LOCKED mode over a world with no drawable tiles) leaves
`floorMin = floorMax + 1 = 8`, strictly above the camera floor 7: the
cache-clearing do-while advances `m_floorMin` past `m_floorMax` and nothing
restores it when the camera did not move and no tile is found. -/
theorem C1_floor_bounds_cex :
    (getCameraPosition (updateVisibleThings emptyWorld 0 lockedRefreshedState)).isValid
      = true ∧
    ¬((updateVisibleThings emptyWorld 0 lockedRefreshedState).floorMin ≤
        (getCameraPosition (updateVisibleThings emptyWorld 0 lockedRefreshedState)).z) := by
  constructor
  · decide
  · decide

/-- C1 (amended): after every run of `updateVisibleThings` performed with a
valid camera position that differs from the camera of the previous refresh
(in particular after the first refresh and after every camera move), the
cached floor bounds satisfy `floorMin ≤ cameraFloor ≤ floorMax`.  When the
camera is unchanged since the previous refresh, a refresh may instead leave
`floorMin = floorMax + 1`, above the camera floor (see the
counterexample). -/
theorem C1_floor_bounds_amended (w : World) (now : Int) (s : MapViewState)
    (hv : (getCameraPosition s).isValid = true)
    (hc : s.lastCameraPosition ≠ getCameraPosition s) :
    (updateVisibleThings w now s).floorMin ≤
      (getCameraPosition (updateVisibleThings w now s)).z ∧
    (getCameraPosition (updateVisibleThings w now s)).z ≤
      (updateVisibleThings w now s).floorMax := by
  rw [updateVisibleThings_camera]
  unfold updateVisibleThings updateVisibleThingsFlag
  simp only [hv, Bool.not_true, Bool.false_eq_true, if_false]
  refine uvt_core_floor_bounds w (getCameraPosition s) now _ _ _ ?_
  rw [(uvtAfterLock_fields (getCameraPosition s) (uvtAfterClear s)).2.2.2.1,
    (uvtAfterClear_fields s).2.2.2.1]
  exact hc

theorem C1_floor_bounds_amended_witness :
    (getCameraPosition { sampleState with lastCameraPosition := invalidPos }).isValid
      = true ∧
    { sampleState with lastCameraPosition := invalidPos }.lastCameraPosition ≠
      getCameraPosition { sampleState with lastCameraPosition := invalidPos } ∧
    ((updateVisibleThings emptyWorld 0
        { sampleState with lastCameraPosition := invalidPos }).floorMin ≤
      (getCameraPosition (updateVisibleThings emptyWorld 0
        { sampleState with lastCameraPosition := invalidPos })).z ∧
    (getCameraPosition (updateVisibleThings emptyWorld 0
        { sampleState with lastCameraPosition := invalidPos })).z ≤
      (updateVisibleThings emptyWorld 0
        { sampleState with lastCameraPosition := invalidPos }).floorMax) :=
  ⟨by decide, by decide,
    C1_floor_bounds_amended emptyWorld 0
      { sampleState with lastCameraPosition := invalidPos } (by decide) (by decide)⟩

/-- C2 (amended): for every floor the builder rebuilds, the anti-diagonal
enumeration of the w×h draw grid visits every grid cell exactly once, and
cells are visited diagonal by diagonal (the sum ix+iy is non-decreasing
along the visit order); however, not every visited cell lies inside the
grid: because `std::max<uint32_t>(diagonal - height, 0)` wraps, each
diagonal additionally begins at row index h (and, for the early diagonals,
at negative column indices), so every visited cell is either in the grid or
has `iy = h` or `ix < 0`. -/
theorem C2_diag_traversal_amended (w h : Nat) (hw : 1 ≤ w) (hh : 1 ≤ h)
    (hwu : w ≤ 2 ^ 15) (hhu : h ≤ 2 ^ 15) :
    (∀ x y : Int, 0 ≤ x → x < (w : Int) → 0 ≤ y → y < (h : Int) →
      (diagCells w h).count (x, y) = 1) ∧
    List.Pairwise (fun c c' : Int × Int => c.1 + c.2 ≤ c'.1 + c'.2)
      (diagCells w h) ∧
    (∀ c ∈ diagCells w h,
      (0 ≤ c.1 ∧ c.1 < (w : Int) ∧ 0 ≤ c.2 ∧ c.2 < (h : Int)) ∨
        c.2 = (h : Int) ∨ c.1 < 0) := by
  refine ⟨fun x y hx0 hxw hy0 hyh =>
    diagCells_count_inGrid w h hw hh hwu hhu x y hx0 hxw hy0 hyh, ?_, ?_⟩
  · unfold diagCells
    apply pairwise_flatMap
    · intro d hd
      simp only [List.mem_range] at hd
      apply pairwise_of_mem_all
      intro c hc c' hc'
      rw [diagIxStart_eq d h hhu (by omega), diagIyStart_eq d h hhu (by omega)]
        at hc hc'
      have h1 := innerDiag_mem (w : Int) (h + 2) _ _ c hc
      have h2 := innerDiag_mem (w : Int) (h + 2) _ _ c' hc'
      omega
    · have hpl : (List.range (w + h - 1)).Pairwise (· < ·) := List.pairwise_lt_range _
      refine List.Pairwise.imp_of_mem ?_ hpl
      intro a b ha hb hab
      simp only [List.mem_range] at ha hb
      intro c hc c' hc'
      rw [diagIxStart_eq a h hhu (by omega), diagIyStart_eq a h hhu (by omega)] at hc
      rw [diagIxStart_eq b h hhu (by omega), diagIyStart_eq b h hhu (by omega)] at hc'
      have h1 := innerDiag_mem (w : Int) (h + 2) _ _ c hc
      have h2 := innerDiag_mem (w : Int) (h + 2) _ _ c' hc'
      omega
  · intro c hc
    obtain ⟨d, hd, hsum, hxl, hxw, hy0, hyh⟩ :=
      diagCells_mem_facts w h hw hh hwu hhu c hc
    omega

theorem C2_diag_traversal_amended_witness :
    ((1 : Nat) ≤ 18 ∧ (1 : Nat) ≤ 14 ∧ (18 : Nat) ≤ 2 ^ 15 ∧ (14 : Nat) ≤ 2 ^ 15) ∧
    (diagCells 18 14).count ((0 : Int), (0 : Int)) = 1 :=
  ⟨⟨by decide, by decide, by decide, by decide⟩,
    (C2_diag_traversal_amended 18 14 (by decide) (by decide) (by decide)
      (by decide)).1 0 0 (by decide) (by decide) (by decide) (by decide)⟩

/-- C2 counterexample: on the default 18×14 draw dimension the anti-diagonal
enumeration visits the cell (4, 14), whose row index equals the grid height —
`std::max<uint32_t>(diagonal - height, 0)` wraps on unsigned arithmetic, so
every diagonal starts one row below the grid (and, for the early diagonals,
at negative column indices). -/
theorem C2_diag_traversal_cex :
    ((4 : Int), (14 : Int)) ∈
      diagCells sampleState.drawDimension.w.toNat sampleState.drawDimension.h.toNat ∧
    ¬(0 ≤ ((4 : Int), (14 : Int)).1 ∧ ((4 : Int), (14 : Int)).1 < 18 ∧
      0 ≤ ((4 : Int), (14 : Int)).2 ∧ ((4 : Int), (14 : Int)).2 < 14) := by
  constructor
  · decide
  · decide

end OTC
